import Mathlib

/-!
Verification of the dbdicom catalog and volume machinery
(`src/dbdicom/dbd.py`, class `DataBaseDicom`, and its API wrapper
`src/dbdicom/api.py`).

The catalog (`self.register`, a pandas DataFrame indexed by relative file
path) is embedded as an association list of `CatalogRecord`s.  Files on
disk are embedded as an association list from relative path to `Dataset`
(the attribute/value content of a DICOM file, as seen through
`dbdicom.dataset.read_dataset` / `get_values` / `set_values`).

Helper modules of the repository that are not under `src/`
(`dbdicom.register`, `dbdicom.dataset`, `dbdicom.utils.arrays`,
`dbdicom.const`) are modelled from the specification; each such
definition carries a doc comment starting `Modelled from the spec:`.

Integer-valued DICOM attributes (`InstanceNumber`, `SeriesNumber`) use
`-1` as the missing-value sentinel, exactly as the register does
(`_max_instance_number` and `_max_series_number` filter out `-1`).
-/

inductive DicomVal where
  | str (s : String)
  | int (n : Int)
  | null
deriving DecidableEq, Repr

def DicomVal.isNull : DicomVal → Bool
  | .null => true
  | _ => false

def strOf : DicomVal → String
  | .str s => s
  | _ => ""

abbrev Dataset := List (String × DicomVal)

/-- Modelled from the spec: the read half of the dataset helper
(`dbdicom.dataset.get_values`, not among the sources) — the value of one
attribute of a dataset, null when absent. -/
def getValue (ds : Dataset) (k : String) : DicomVal :=
  match ds.find? (fun kv => kv.1 == k) with
  | some kv => kv.2
  | none => .null

/-- Modelled from the spec: the write half of the dataset helper
(`dbdicom.dataset.set_values`, not among the sources) — overwrite the
attribute in place when present, append it otherwise. -/
def setValue (ds : Dataset) (k : String) (v : DicomVal) : Dataset :=
  if ds.any (fun kv => kv.1 == k) then
    ds.map (fun kv => if kv.1 == k then (k, v) else kv)
  else
    ds ++ [(k, v)]

/-- Modelled from the spec: setting a whole attribute dictionary on a
dataset, one `setValue` per entry in order. -/
def applyAttrs (ds : Dataset) (attrs : List (String × DicomVal)) : Dataset :=
  attrs.foldl (fun d kv => setValue d kv.1 kv.2) ds

def getStrD (ds : Dataset) (k : String) (d : String) : String :=
  match getValue ds k with
  | .str s => s
  | _ => d

def getIntD (ds : Dataset) (k : String) (d : Int) : Int :=
  match getValue ds k with
  | .int n => n
  | _ => d

structure CatalogRecord where
  patientID : String
  patientName : String
  studyInstanceUID : String
  studyDescription : String
  studyDate : String
  seriesInstanceUID : String
  seriesDescription : String
  seriesNumber : Int
  instanceNumber : Int
  sopInstanceUID : String
  sopClassUID : String
  numberOfFrames : Option Int
  removed : Bool
  created : Bool
deriving DecidableEq, Repr

abbrev Register := List (String × CatalogRecord)

/-- Modelled from the spec: the register row derived from a dataset when
a written file is recorded — the identifying attributes as the dataset
helper reads them, with created=true and removed=false. -/
def recordOfDataset (ds : Dataset) : CatalogRecord :=
  { patientID := getStrD ds "PatientID" ""
    patientName := getStrD ds "PatientName" ""
    studyInstanceUID := getStrD ds "StudyInstanceUID" ""
    studyDescription := getStrD ds "StudyDescription" ""
    studyDate := getStrD ds "StudyDate" ""
    seriesInstanceUID := getStrD ds "SeriesInstanceUID" ""
    seriesDescription := getStrD ds "SeriesDescription" ""
    seriesNumber := getIntD ds "SeriesNumber" (-1)
    instanceNumber := getIntD ds "InstanceNumber" (-1)
    sopInstanceUID := getStrD ds "SOPInstanceUID" ""
    sopClassUID := getStrD ds "SOPClassUID" ""
    numberOfFrames := match getValue ds "NumberOfFrames" with
      | .int n => some n
      | _ => none
    removed := false
    created := false }

structure DbState where
  path : String
  reg : Register
  disk : List (String × Dataset)
  uidSeq : Nat
  today : String
deriving DecidableEq, Repr

def newUid (st : DbState) : String × DbState :=
  ("uid." ++ String.mk (List.replicate st.uidSeq 'I'),
   { st with uidSeq := st.uidSeq + 1 })

def diskHas (disk : List (String × Dataset)) (p : String) : Bool :=
  disk.any (fun fd => fd.1 == p)

/-- Modelled from the spec: `dbdicom.dataset.read_dataset` (not among
the sources) — the dataset stored at a relative path, none when the file
is absent. -/
def readDataset (st : DbState) (p : String) : Option Dataset :=
  (st.disk.find? (fun fd => fd.1 == p)).map (fun fd => fd.2)

/-- Commit of the session, dbd.py:63-88: delete from disk the files of
removed records that are present, keep the non-removed records with the
created flag cleared.  The second component lists the deleted paths; the
snapshot pickle is external and modelled as a no-op. -/
def close (st : DbState) : DbState × List String :=
  let removedPaths := (st.reg.filter (fun pr => pr.2.removed)).map (fun pr => pr.1)
  let deleted := removedPaths.filter (fun p => diskHas st.disk p)
  let disk1 := st.disk.filter (fun fd => !(removedPaths.contains fd.1))
  let reg1 := (st.reg.filter (fun pr => !pr.2.removed)).map
      (fun pr => if pr.2.created then (pr.1, { pr.2 with created := false }) else pr)
  ({ st with reg := reg1, disk := disk1 }, deleted)

/-- Rollback of the session, dbd.py:91-114: delete from disk and drop
from the register the records with the created flag set (dbd.py:94
filters on created alone), clear removed on the rest.  The second
component lists the deleted paths. -/
def restore (st : DbState) : DbState × List String :=
  let createdPaths := (st.reg.filter (fun pr => pr.2.created)).map (fun pr => pr.1)
  let deleted := createdPaths.filter (fun p => diskHas st.disk p)
  let disk1 := st.disk.filter (fun fd => !(createdPaths.contains fd.1))
  let reg1 := (st.reg.filter (fun pr => !pr.2.created)).map
      (fun pr => if pr.2.removed && !pr.2.created then (pr.1, { pr.2 with removed := false }) else pr)
  ({ st with reg := reg1, disk := disk1 }, deleted)

/-- Staged deletion, dbd.py:473-481: set removed=true on every record
under the index; physical deletion is deferred to close. -/
def markRemoved (st : DbState) (idx : List String) : DbState :=
  let reg1 := st.reg.map
      (fun pr => if idx.contains pr.1 then (pr.1, { pr.2 with removed := true }) else pr)
  { st with reg := reg1 }

/-- Modelled from the spec: membership of a record in the entity a path
list addresses (root, patient, study or series), as the register helper
module (`dbdicom.register`, not among the sources) matches rows. -/
def matchesEntity (r : CatalogRecord) (e : List String) : Bool :=
  match e with
  | [] => true
  | [_] => true
  | [_, p] => r.patientName == p
  | [_, p, sd] => r.patientName == p && r.studyDescription == sd
  | _ :: p :: sd :: se :: _ =>
      r.patientName == p && r.studyDescription == sd && r.seriesDescription == se

/-- Modelled from the spec: `register.index` — the relative paths of the
non-removed records under an entity address. -/
def registerIndex (reg : Register) (e : List String) : List String :=
  (reg.filter (fun pr => !pr.2.removed && matchesEntity pr.2 e)).map (fun pr => pr.1)

/-- Modelled from the spec: `register.files` — the files of the
non-removed records under an entity address, in register order. -/
def registerFiles (reg : Register) (e : List String) : List String :=
  (reg.filter (fun pr => !pr.2.removed && matchesEntity pr.2 e)).map (fun pr => pr.1)

/-- Modelled from the spec: the StudyInstanceUID recorded for a study
address — that of its first non-removed record, if any. -/
def studyUidOf (reg : Register) (study : List String) : Option String :=
  ((reg.filter (fun pr => !pr.2.removed && matchesEntity pr.2 study)).head?).map
    (fun pr => pr.2.studyInstanceUID)

/-- The maximum InstanceNumber among non-removed records of a series,
dbd.py:563-569: values of -1 (the missing-value sentinel) are filtered
out and the maximum of an empty set is 0. -/
def maxInstanceNumber (reg : Register) (suid : String) : Int :=
  let ns := ((reg.filter (fun pr => pr.2.seriesInstanceUID == suid && !pr.2.removed)).map
      (fun pr => pr.2.instanceNumber)).filter (fun n => !(n == -1))
  match ns with
  | [] => 0
  | x :: xs => xs.foldl max x

/-- The maximum SeriesNumber among non-removed records of a study,
dbd.py:555-561, with the same -1 filtering and empty fallback 0. -/
def maxSeriesNumber (reg : Register) (studyUid : String) : Int :=
  let ns := ((reg.filter (fun pr => pr.2.studyInstanceUID == studyUid && !pr.2.removed)).map
      (fun pr => pr.2.seriesNumber)).filter (fun n => !(n == -1))
  match ns with
  | [] => 0
  | x :: xs => xs.foldl max x

/-- Modelled from the spec: first-occurrence deduplication, as the
register queries list each entity once. -/
def dedupFirst (l : List String) : List String :=
  l.foldl (fun acc x => if acc.contains x then acc else acc ++ [x]) []

/-- Modelled from the spec: the patients query of the register helper —
one address per distinct patient among non-removed records. -/
def patientsQ (st : DbState) : List (List String) :=
  (dedupFirst ((st.reg.filter (fun pr => !pr.2.removed)).map (fun pr => pr.2.patientName))).map
    (fun p => [st.path, p])

/-- Modelled from the spec: the studies query of the register helper —
one address per distinct study of a patient among non-removed records. -/
def studiesQ (reg : Register) (patient : List String) : List (List String) :=
  (dedupFirst ((reg.filter (fun pr => !pr.2.removed && matchesEntity pr.2 patient)).map
      (fun pr => pr.2.studyDescription))).map (fun d => patient ++ [d])

/-- Modelled from the spec: the series query of the register helper —
one address per distinct series of a study among non-removed records. -/
def seriesQ (reg : Register) (study : List String) : List (List String) :=
  (dedupFirst ((reg.filter (fun pr => !pr.2.removed && matchesEntity pr.2 study)).map
      (fun pr => pr.2.seriesDescription))).map (fun d => study ++ [d])

/-- Modelled from the spec: all series of the database, patients then
studies then series, as `_split_multiframe` and `_split_series` iterate
them. -/
def seriesAll (st : DbState) : List (List String) :=
  ((patientsQ st).map
    (fun p => ((studiesQ st.reg p).map (fun s => seriesQ st.reg s)).flatten)).flatten

/-- Modelled from the spec: the patient module attributes consulted by
attribute resolution (the module lists live outside the sources). -/
def PATIENT_MODULE : List String := ["PatientID", "PatientName"]

/-- Modelled from the spec: the study module attributes consulted by
attribute resolution. -/
def STUDY_MODULE : List String := ["StudyInstanceUID", "StudyDescription", "StudyDate"]

/-- Modelled from the spec: the series module attributes consulted by
attribute resolution. -/
def SERIES_MODULE : List String := ["SeriesInstanceUID", "SeriesDescription", "SeriesNumber"]

def omitNull (l : List (String × DicomVal)) : List (String × DicomVal) :=
  l.filter (fun kv => !kv.2.isNull)

def dictUnion (a b : List (String × DicomVal)) : List (String × DicomVal) :=
  a.filter (fun kv => !(b.any (fun kv2 => kv2.1 == kv.1))) ++ b

def attrLookup (attrs : List (String × DicomVal)) (k : String) : Option DicomVal :=
  (attrs.find? (fun kv => kv.1 == k)).map (fun kv => kv.2)

/-- Patient attribute resolution, dbd.py:581-595: read the patient
module from the first file of the entity, or synthesize a fresh
PatientID and take PatientName from the address when it has none;
null-valued attributes are omitted from the returned dictionary. -/
def patientAttributes (st : DbState) (patient : List String) :
    List (String × DicomVal) × DbState :=
  match (registerFiles st.reg patient).head?.bind (fun f => readDataset st f) with
  | some ds => (omitNull (PATIENT_MODULE.map (fun a => (a, getValue ds a))), st)
  | none =>
      let (uid, st1) := newUid st
      (omitNull [("PatientID", .str uid), ("PatientName", .str (patient.getLastD ""))], st1)

/-- Study attribute resolution, dbd.py:597-613: the patient attributes
unioned with the study module read from the first file of the study, or
with a synthesized StudyInstanceUID, the address description and the
current date when the study has no files. -/
def studyAttributes (st : DbState) (study : List String) :
    List (String × DicomVal) × DbState :=
  let (pattr, st1) := patientAttributes st (study.take 2)
  match (registerFiles st1.reg study).head?.bind (fun f => readDataset st1 f) with
  | some ds => (dictUnion pattr (omitNull (STUDY_MODULE.map (fun a => (a, getValue ds a)))), st1)
  | none =>
      let (uid, st2) := newUid st1
      (dictUnion pattr (omitNull
        [("StudyInstanceUID", .str uid), ("StudyDescription", .str (study.getLastD "")),
         ("StudyDate", .str st2.today)]), st2)

/-- Series attribute resolution, dbd.py:615-635: the study attributes
unioned with the series module read from the first file of the series,
or with a synthesized SeriesInstanceUID, the address description and
SeriesNumber = 1 + the maximum SeriesNumber of the parent study when the
series has no files. -/
def seriesAttributes (st : DbState) (series : List String) :
    List (String × DicomVal) × DbState :=
  let (sattr, st1) := studyAttributes st (series.take 3)
  match (registerFiles st1.reg series).head?.bind (fun f => readDataset st1 f) with
  | some ds => (dictUnion sattr (omitNull (SERIES_MODULE.map (fun a => (a, getValue ds a)))), st1)
  | none =>
      let sn : Int :=
        match studyUidOf st1.reg series.dropLast with
        | some uid => 1 + maxSeriesNumber st1.reg uid
        | none => 1
      let (uid, st2) := newUid st1
      (dictUnion sattr (omitNull
        [("SeriesInstanceUID", .str uid), ("SeriesDescription", .str (series.getLastD "")),
         ("SeriesNumber", .int sn)]), st2)

/-- Depth dispatch of attribute resolution, dbd.py:572-579. -/
def attributes (st : DbState) (e : List String) :
    Option (List (String × DicomVal) × DbState) :=
  if e.length = 4 then some (seriesAttributes st e)
  else if e.length = 3 then some (studyAttributes st e)
  else if e.length = 2 then some (patientAttributes st e)
  else none

/-- Per-file write step, dbd.py:638-647: stamp a fresh SOPInstanceUID
and the given InstanceNumber on top of the destination attributes, write
the file and stage its register row. -/
def writeDataset (st : DbState) (ds : Dataset) (attr : List (String × DicomVal))
    (instanceNr : Int) : DbState × Dataset × (String × CatalogRecord) :=
  let (sop, st1) := newUid st
  let fullAttr := dictUnion attr
    [("SOPInstanceUID", .str sop), ("InstanceNumber", .int instanceNr)]
  let ds1 := applyAttrs ds fullAttr
  let (fuid, st2) := newUid st1
  let relPath := "dbdicom/" ++ fuid ++ ".dcm"
  let st3 := { st2 with disk := st2.disk ++ [(relPath, ds1)] }
  (st3, ds1, (relPath, recordOfDataset ds1))

/-- Register update, dbd.py:650-655: append the staged rows to the
register. -/
def updateRegister (st : DbState) (rows : List (String × CatalogRecord)) : DbState :=
  let newRows := rows.map (fun pr => (pr.1, { pr.2 with removed := false, created := true }))
  { st with reg := st.reg ++ newRows }

def writeFilesLoop (attr : List (String × DicomVal)) (n : Int) :
    DbState → Nat → List (String × CatalogRecord) → List String →
    Except String (DbState × List (String × CatalogRecord))
  | st, _, rows, [] => .ok (st, rows)
  | st, i, rows, f :: fs =>
    match readDataset st f with
    | none => .error ("file not found: " ++ f)
    | some ds =>
      let out := writeDataset st ds attr (n + 1 + (i : Int))
      writeFilesLoop attr n out.1 (i + 1) (rows ++ [out.2.2]) fs

def seriesTarget (st : DbState) (e : List String) :
    Except String (List (String × DicomVal) × String × DbState) :=
  match attributes st e with
  | none => .error "TypeError: entity depth not supported"
  | some (attr, st1) =>
    match attrLookup attr "SeriesInstanceUID" with
    | none => .error "KeyError: SeriesInstanceUID"
    | some v => .ok (attr, strOf v, st1)

/-- Copy files into a series, dbd.py:540-553: resolve the destination
attributes once, then write each source dataset with consecutive
InstanceNumbers above the destination maximum and append the staged
rows. -/
def filesToSeries (st : DbState) (files : List String) (toSeries : List String) :
    Except String DbState :=
  match seriesTarget st toSeries with
  | .error e => .error e
  | .ok (attr, suid, st1) =>
    let n := maxInstanceNumber st1.reg suid
    match writeFilesLoop attr n st1 0 [] files with
    | .error e => .error e
    | .ok (st2, rows) => .ok (updateRegister st2 rows)

/-- Series copy, dbd.py:526-538: the files of the source series written
into the destination series. -/
def copySeries (st : DbState) (fromSe toSe : List String) : Except String DbState :=
  let files := registerFiles st.reg fromSe
  if toSe.headD "" == fromSe.headD "" then
    filesToSeries st files toSe
  else
    .ok st

def foldE (f : DbState → List String → Except String DbState) :
    DbState → List (List String) → Except String DbState
  | st, [] => .ok st
  | st, e :: es =>
    match f st e with
    | .error m => .error m
    | .ok st1 => foldE f st1 es

/-- Study copy, dbd.py:516-524: each child series copied under the
destination study with its own description. -/
def copyStudy (st : DbState) (fromSt toSt : List String) : Except String DbState :=
  foldE
    (fun s fromSe =>
      let toSe := toSt ++ [fromSe.getLastD ""]
      copySeries s fromSe toSe)
    st (seriesQ st.reg fromSt)

def copyPatientLoop (fromP toP : List String) :
    DbState → Option (List String) → List (List String) → Except String DbState
  | st, _, [] => .ok st
  | st, toStudy, fs :: rest =>
    if toP.headD "" == fromP.headD "" then
      let ts := toP ++ [fs.getLastD ""]
      match copyStudy st fs ts with
      | .error m => .error m
      | .ok st1 => copyPatientLoop fromP toP st1 (some ts) rest
    else
      match toStudy with
      | none => .error "UnboundLocalError: local variable to_study referenced before assignment"
      | some _ =>
        let ts := toP ++ [fs.getLastD ""]
        match copyStudy st fs ts with
        | .error m => .error m
        | .ok st1 => copyPatientLoop fromP toP st1 (some ts) rest

/-- Patient copy, dbd.py:506-514: same-root child studies are copied
through copyStudy; the cross-root branch reads to_study before it is
assigned (dbd.py:512) and therefore fails with an unbound-local error on
its first study. -/
def copyPatient (st : DbState) (fromP toP : List String) : Except String DbState :=
  copyPatientLoop fromP toP st none (studiesQ st.reg fromP)

/-- Entity copy, dbd.py:441-471: dispatch on the address depths, failing
with a shape-mismatch message before any mutation when they disagree or
fall outside 2..4; errors of the per-depth helpers are returned with the
state they left behind. -/
def copy (st : DbState) (fromE toE : List String) : DbState × Option String :=
  if fromE.length = 4 then
    if toE.length ≠ 4 then
      (st, some "Cannot copy series: target is not a series (needs 4 elements).")
    else
      match copySeries st fromE toE with
      | .ok st1 => (st1, none)
      | .error m => (st, some m)
  else if fromE.length = 3 then
    if toE.length ≠ 3 then
      (st, some "Cannot copy study: target is not a study (needs 3 elements).")
    else
      match copyStudy st fromE toE with
      | .ok st1 => (st1, none)
      | .error m => (st, some m)
  else if fromE.length = 2 then
    if toE.length ≠ 2 then
      (st, some "Cannot copy patient: target is not a patient (needs 2 elements).")
    else
      match copyPatient st fromE toE with
      | .ok st1 => (st1, none)
      | .error m => (st, some m)
  else
    (st, some "Cannot copy: unsupported entity.")

structure VolumeND where
  ndim : Nat
  slices : List (List (String × DicomVal))
deriving DecidableEq, Repr

def writeVolumeLoop (attr : List (String × DicomVal)) (n : Int) :
    DbState → Dataset → Nat → List (String × CatalogRecord) →
    List (List (String × DicomVal)) → DbState × List (String × CatalogRecord)
  | st, _, _, rows, [] => (st, rows)
  | st, ds, i, rows, sl :: rest =>
    let ds1 := applyAttrs ds sl
    let out := writeDataset st ds1 attr (n + 1 + (i : Int))
    writeVolumeLoop attr n out.1 out.2.1 (i + 1) (rows ++ [out.2.2]) rest

/-- Volume write, dbd.py:268-312: resolve the destination series, write
one instance per slice with consecutive InstanceNumbers.  The
3-dimensional branch falls through to the register update at
dbd.py:312; the higher-dimensional branch returns at dbd.py:311 before
it, so its staged rows are discarded. -/
def writeVolume (st : DbState) (vol : VolumeND) (series : List String)
    (refDs : Dataset) : Except String DbState :=
  match seriesTarget st series with
  | .error e => .error e
  | .ok (attr, suid, st1) =>
    let n := maxInstanceNumber st1.reg suid
    if vol.ndim = 3 then
      let out := writeVolumeLoop attr n st1 refDs 0 [] vol.slices
      .ok (updateRegister out.1 out.2)
    else
      let out := writeVolumeLoop attr n st1 refDs 0 [] vol.slices
      .ok out.1

def dropRow (reg : Register) (p : String) : Register :=
  reg.filter (fun pr => !(pr.1 == p))

/-- Multiframe normalization, dbd.py:663-686, over the external
converter `conv` (empty result signals a failed conversion): a
multiframe record is dropped and its file deleted; on success the
single-frame files are registered in its place, on failure nothing
replaces it.  The second component collects the diagnostics the pass
emits — the code emits none. -/
def multiframeToSingleframe (st : DbState) (conv : String → List (String × Dataset)) :
    DbState × List String :=
  let multi := (st.reg.filter (fun pr => pr.2.numberOfFrames.isSome)).map (fun pr => pr.1)
  multi.foldl
    (fun acc relpath =>
      let st0 := acc.1
      let newFiles := conv relpath
      let st1 :=
        if newFiles.isEmpty then st0
        else
          { st0 with
              reg := st0.reg ++ newFiles.map (fun fd => (fd.1, recordOfDataset fd.2)),
              disk := st0.disk.filter (fun fd => !(fd.1 == relpath)) ++ newFiles }
      ({ st1 with reg := dropRow st1.reg relpath }, acc.2))
    (st, [])

def splitClassesLoop (series : List String) (desc : String) (recs : Register) :
    DbState → Nat → List String → Except String DbState
  | st, _, [] => .ok st
  | st, i, sop :: rest =>
    let classRecs := recs.filter (fun pr => pr.2.sopClassUID == sop)
    let relpaths := classRecs.map (fun pr => pr.1)
    let target := series.dropLast ++ [desc ++ " [" ++ toString (i + 1) ++ "]"]
    match filesToSeries st relpaths target with
    | .error m => .error m
    | .ok st1 =>
      let st2 := { st1 with disk := st1.disk.filter (fun fd => !(relpaths.contains fd.1)) }
      splitClassesLoop series desc recs st2 (i + 1) rest

/-- SOP-class split of one series, dbd.py:689-717: every class after the
first is copied to a sibling whose description is built from series[0]
(the root path, since the isinstance test at dbd.py:706 is always
false), the moved files are deleted from disk, and the register drop at
dbd.py:714 is discarded because it is not in place. -/
def splitSeriesOne (st : DbState) (series : List String) : Except String DbState :=
  let seriesIndex := registerIndex st.reg series
  let recs := st.reg.filter (fun pr => seriesIndex.contains pr.1)
  let sopClasses := dedupFirst (recs.map (fun pr => pr.2.sopClassUID))
  if 1 < sopClasses.length then
    let desc := series.headD ""
    splitClassesLoop series desc recs st 0 (sopClasses.drop 1)
  else .ok st

def splitSeries (st : DbState) : Except String DbState :=
  foldE (fun s series => splitSeriesOne s series) st (seriesAll st)

def stampPair (s : String) (nr : Int) : List (String × DicomVal) :=
  [("SOPInstanceUID", DicomVal.str s), ("InstanceNumber", DicomVal.int nr)]

inductive AppendSession : DbState → DbState → Nat → Prop
  | refl (st : DbState) : AppendSession st st 0
  | step (st0 st st' : DbState) (k : Nat) (files tgt : List String) :
      AppendSession st0 st k → filesToSeries st files tgt = .ok st' →
      AppendSession st0 st' (k + files.length)

def cexRec : CatalogRecord :=
  { patientID := "pid", patientName := "P", studyInstanceUID := "stu"
    studyDescription := "S", studyDate := "20250101", seriesInstanceUID := "ser1"
    seriesDescription := "T1", seriesNumber := 1, instanceNumber := 1
    sopInstanceUID := "i1", sopClassUID := "c1", numberOfFrames := none
    removed := true, created := true }

def cexSt : DbState :=
  { path := "db", reg := [("f.dcm", cexRec)], disk := [("f.dcm", [])]
    uidSeq := 0, today := "20260101" }

def dsA : Dataset :=
  [("PatientID", .str "pid"), ("PatientName", .str "P"),
   ("StudyInstanceUID", .str "stu"), ("StudyDescription", .str "S"),
   ("StudyDate", .str "20250101"),
   ("SeriesInstanceUID", .str "ser1"), ("SeriesDescription", .str "T1"),
   ("SeriesNumber", .int 5), ("InstanceNumber", .int 1),
   ("SOPInstanceUID", .str "i1"), ("SOPClassUID", .str "c1")]

def dsB : Dataset :=
  [("PatientID", .str "pid"), ("PatientName", .str "P"),
   ("StudyInstanceUID", .str "stu"), ("StudyDescription", .str "S"),
   ("StudyDate", .str "20250101"),
   ("SeriesInstanceUID", .str "ser1"), ("SeriesDescription", .str "T1"),
   ("SeriesNumber", .int 5), ("InstanceNumber", .int 2),
   ("SOPInstanceUID", .str "i2"), ("SOPClassUID", .str "c2")]

def recA : CatalogRecord := recordOfDataset dsA

def recB : CatalogRecord := recordOfDataset dsB

def demoSt : DbState :=
  { path := "db", reg := [("a.dcm", recA), ("b.dcm", recB)]
    disk := [("a.dcm", dsA), ("b.dcm", dsB)], uidSeq := 0, today := "20260102" }

def demoTgt : List String := ["db", "P", "S", "T2"]

def demoApp : DbState :=
  match filesToSeries demoSt ["a.dcm"] demoTgt with
  | .ok s => s
  | .error _ => demoSt

abbrev PairNe (a b : String × CatalogRecord) : Prop :=
  a.2.seriesInstanceUID ≠ b.2.seriesInstanceUID ∨ a.2.instanceNumber ≠ b.2.instanceNumber

abbrev PairsUniqueNR (reg : Register) : Prop :=
  (reg.filter fun pr => !pr.2.removed).Pairwise PairNe

abbrev PairsUniqueNC (reg : Register) : Prop :=
  (reg.filter fun pr => !pr.2.created).Pairwise PairNe

abbrev NumsGE (reg : Register) : Prop := ∀ pr ∈ reg, (-1 : Int) ≤ pr.2.instanceNumber

abbrev CatalogInv (st : DbState) : Prop :=
  PairsUniqueNR st.reg ∧ PairsUniqueNC st.reg ∧ NumsGE st.reg

inductive DbStep : DbState → DbState → Prop
  | copyF (st st' : DbState) (files tgt : List String) :
      filesToSeries st files tgt = .ok st' → DbStep st st'
  | writeV (st st' : DbState) (vol : VolumeND) (tgt : List String) (refDs : Dataset) :
      writeVolume st vol tgt refDs = .ok st' → DbStep st st'
  | del (st : DbState) (idx : List String) : DbStep st (markRemoved st idx)
  | commit (st : DbState) : DbStep st (close st).1
  | rollback (st : DbState) : DbStep st (restore st).1

abbrev CleanInit (st : DbState) : Prop :=
  (∀ pr ∈ st.reg, pr.2.removed = false ∧ pr.2.created = false) ∧
  st.reg.Pairwise PairNe ∧ NumsGE st.reg

inductive ReachableCatalog : DbState → Prop
  | init (st : DbState) : CleanInit st → ReachableCatalog st
  | step (st st' : DbState) : ReachableCatalog st → DbStep st st' → ReachableCatalog st'

/-- Modelled from the spec: first-occurrence deduplication over integers,
used to collect the distinct values observed along one coordinate axis
(mesh assembly step 1; the implementation lives in
`dbdicom.utils.arrays`, which is not among the sources). -/
def dedupInts (l : List Int) : List Int :=
  l.foldl (fun acc x => if acc.contains x then acc else acc ++ [x]) []

/-- Modelled from the spec: mesh assembly step 1 — the sorted set of
distinct values observed along coordinate axis `d` of the slice tuples
(axis 0 is the mandatory spatial ordering key, axes 1.. are the
non-spatial dimensions). -/
def axisVals (tuples : List (List Int)) (d : Nat) : List Int :=
  List.insertionSort (fun a b => a ≤ b) (dedupInts (tuples.map (fun t => t.getD d 0)))

/-- Modelled from the spec: lexicographic Cartesian product of per-axis
value lists; its first element combines the index-0 value of every axis. -/
def prodLists : List (List Int) → List (List Int)
  | [] => [[]]
  | vs :: rest => (vs.map (fun v => (prodLists rest).map (fun c => v :: c))).flatten

/-- Modelled from the spec: mesh assembly step 2 — the non-spatial
combinations (the "pages" of the grid): the Cartesian product of the
distinct-value sets of the non-spatial axes `1..ndims-1`. -/
def pages (tuples : List (List Int)) (ndims : Nat) : List (List Int) :=
  prodLists ((List.range (ndims - 1)).map (fun d => axisVals tuples (d + 1)))

/-- Modelled from the spec: the combination at index 0 along every
non-spatial axis, the reference page of mesh assembly step 4. -/
def firstPage (tuples : List (List Int)) (ndims : Nat) : List Int :=
  (List.range (ndims - 1)).map (fun d => (axisVals tuples (d + 1)).headD 0)

/-- Modelled from the spec: mesh assembly step 3 places each slice at the
grid cell matching its coordinate tuple, so the spatial-axis coordinate
vector observed at non-spatial combination `p` is the ordered list of
spatial-key values of the slices whose non-spatial coordinates equal `p`
— the occupying slices' own coordinates, not the nominal per-axis
product, so pages with differing spatial sampling are representable. -/
def spatialVec (tuples : List (List Int)) (p : List Int) : List Int :=
  List.insertionSort (fun a b => a ≤ b)
    ((tuples.filter (fun t => t.drop 1 == p)).map (fun t => t.headD 0))

/-- Modelled from the spec: the grid's cell count (mesh assembly steps
2-3), the spatial extent being the number of slices at the first
non-spatial combination.  Taking the per-page slice count as the spatial
extent keeps step 4 meaningful: the spec's geometry-inconsistency test
(four slices whose spatial coordinates differ between pages) must reach
the geometry check rather than the incomplete-grid check. -/
def gridCells (tuples : List (List Int)) (ndims : Nat) : Nat :=
  (spatialVec tuples (firstPage tuples ndims)).length * (pages tuples ndims).length

/-- Modelled from the spec: mesh assembly step 4, the page comparison of
dbd.py:250-258 — every non-spatial combination's observed spatial
coordinate vector must equal the first combination's. -/
def geomCheck (tuples : List (List Int)) (ndims : Nat) : Bool :=
  (pages tuples ndims).all
    (fun p => spatialVec tuples p == spatialVec tuples (firstPage tuples ndims))

inductive MeshErr where
  | incompleteGrid
  | geometryInconsistency
deriving DecidableEq, Repr

/-- The assembled volume: the dimensionality reported by the external
join primitive (dbd.py:261-262) and the non-spatial dimension labels and
coordinate values attached by dbd.py:263-264 (left empty when the result
has at most 3 dimensions). -/
structure VolOut where
  ndim : Nat
  dims : List String
  coords : List (List Int)
deriving DecidableEq, Repr

/-- Modelled from the spec: volume assembly (dbd.py:211-265, with
`meshvals` of `dbdicom.utils.arrays` modelled from the spec).  Fails with
an incomplete-grid error when the slice count differs from the grid's
cell count, then with a geometry-inconsistency error when some page's
observed spatial coordinate vector differs from the first page's;
otherwise returns the assembled volume, attaching the non-spatial
dimension labels `dimLabels` and the per-page non-spatial coordinate
values exactly when the externally joined result has more than 3
dimensions (`joinNdim`, dbd.py:262-264). -/
def volumeAssemble (dimLabels : List String) (tuples : List (List Int))
    (ndims joinNdim : Nat) : Except MeshErr VolOut :=
  if tuples.length ≠ gridCells tuples ndims then .error .incompleteGrid
  else if ¬ geomCheck tuples ndims then .error .geometryInconsistency
  else .ok { ndim := joinNdim,
             dims := if 3 < joinNdim then dimLabels else [],
             coords := if 3 < joinNdim then pages tuples ndims else [] }

/-- The claim's hypothesis: the coordinate tuples form a complete,
duplicate-free Cartesian grid — every tuple has the full dimensionality,
no tuple repeats, the slice count equals the grid's cell count, and every
page holds duplicate-free spatial values, as many as the first page. -/
abbrev CompleteGrid (tuples : List (List Int)) (ndims : Nat) : Prop :=
  (∀ t ∈ tuples, t.length = ndims) ∧ tuples.Nodup ∧
  tuples.length = gridCells tuples ndims ∧
  ∀ p ∈ pages tuples ndims,
    (spatialVec tuples p).Nodup ∧
    (spatialVec tuples p).length = (spatialVec tuples (firstPage tuples ndims)).length

/-- The claim's error condition: the spatial-axis coordinate vector at
some combination of non-spatial axis values differs from the vector at
the first combination. -/
abbrev SpatialMismatch (tuples : List (List Int)) (ndims : Nat) : Prop :=
  ∃ p ∈ pages tuples ndims,
    spatialVec tuples p ≠ spatialVec tuples (firstPage tuples ndims)

def demoVol4 : VolumeND :=
  { ndim := 4, slices := [[("SliceLocation", .int 0)], [("SliceLocation", .int 1)]] }

def demoVol3 : VolumeND :=
  { ndim := 3, slices := [[("SliceLocation", .int 0)], [("SliceLocation", .int 1)]] }

def demoWv4 : DbState :=
  match writeVolume demoSt demoVol4 ["db", "P", "S", "T1"] [] with
  | .ok s => s
  | .error _ => demoSt

def demoWv3 : DbState :=
  match writeVolume demoSt demoVol3 ["db", "P", "S", "T1"] [] with
  | .ok s => s
  | .error _ => demoSt

def demoSplit : DbState :=
  match splitSeries demoSt with
  | .ok s => s
  | .error _ => demoSt

def demoMfSt : DbState :=
  { demoSt with reg := [("a.dcm", { recA with numberOfFrames := some 3 }), ("b.dcm", recB)] }

/-! ## Theorems -/

theorem getValue_setValue_self (ds : Dataset) (k : String) (v : DicomVal) :
    getValue (setValue ds k v) k = v := by
  unfold setValue
  by_cases h : ds.any (fun kv => kv.1 == k) = true
  · simp only [h, if_true, getValue, List.find?_map]
    have hp : (fun kv : String × DicomVal =>
        ((if kv.1 == k then (k, v) else kv).1 == k)) = fun kv => kv.1 == k := by
      funext kv
      by_cases hk : kv.1 == k <;> simp [hk]
    rw [show ((fun kv : String × DicomVal => kv.1 == k) ∘
        fun kv => if kv.1 == k then (k, v) else kv) = fun kv => kv.1 == k from hp]
    rcases List.any_eq_true.mp h with ⟨kv0, hmem, hkv0⟩
    cases hfind : ds.find? (fun kv => kv.1 == k) with
    | none => exact absurd hkv0 (by simpa using List.find?_eq_none.mp hfind kv0 hmem)
    | some kv1 =>
      have hkv1 : kv1.1 = k := by simpa using List.find?_some hfind
      simp [hfind, hkv1]
  · simp only [h, if_false, getValue, List.find?_append]
    have hnone : ds.find? (fun kv => kv.1 == k) = none :=
      List.find?_eq_none.mpr (fun x hx hpx => h (List.any_eq_true.mpr ⟨x, hx, hpx⟩))
    simp [hnone]

theorem getValue_setValue_ne (ds : Dataset) (k1 k : String) (v : DicomVal)
    (hne : k1 ≠ k) : getValue (setValue ds k1 v) k = getValue ds k := by
  unfold setValue
  by_cases h : ds.any (fun kv => kv.1 == k1) = true
  · simp only [h, if_true, getValue, List.find?_map]
    have hp : ((fun kv : String × DicomVal => kv.1 == k) ∘
        fun kv => if kv.1 == k1 then (k1, v) else kv) = fun kv => kv.1 == k := by
      funext kv
      by_cases hk : kv.1 == k1
      · have h1 : kv.1 = k1 := by simpa using hk
        simp [Function.comp, hk, h1, hne, Ne.symm hne]
      · simp [Function.comp, hk]
    rw [hp]
    cases hfind : ds.find? (fun kv => kv.1 == k) with
    | none => simp [hfind]
    | some kv0 =>
      have hkv0 : kv0.1 = k := by simpa using List.find?_some hfind
      have hkv0ne : ¬ kv0.1 = k1 := by simp [hkv0, Ne.symm hne]
      simp [hfind, hkv0ne]
  · simp only [h, if_false, getValue, List.find?_append]
    cases hfind : ds.find? (fun kv => kv.1 == k) with
    | none => simp [hfind, hne]
    | some kv0 => simp [hfind]

theorem attrLookup_eq_none_iff (l : List (String × DicomVal)) (k : String) :
    attrLookup l k = none ↔ ∀ kv ∈ l, kv.1 ≠ k := by
  simp [attrLookup, List.find?_eq_none]

theorem getValue_applyAttrs (ds : Dataset) (l : List (String × DicomVal)) (k : String)
    (hnd : (l.map Prod.fst).Nodup) :
    getValue (applyAttrs ds l) k =
      match attrLookup l k with
      | some v => v
      | none => getValue ds k := by
  induction l generalizing ds with
  | nil => simp [applyAttrs, attrLookup]
  | cons kv t ih =>
    simp only [List.map_cons, List.nodup_cons] at hnd
    show getValue (applyAttrs (setValue ds kv.1 kv.2) t) k = _
    by_cases hk : kv.1 = k
    · subst hk
      have hnone : attrLookup t kv.1 = none := by
        rw [attrLookup_eq_none_iff]
        intro x hx hx1
        exact hnd.1 (hx1 ▸ List.mem_map_of_mem Prod.fst hx)
      rw [ih _ hnd.2, hnone]
      have hl : attrLookup (kv :: t) kv.1 = some kv.2 := by
        simp [attrLookup, List.find?_cons_of_pos]
      rw [hl]
      exact getValue_setValue_self ds kv.1 kv.2
    · have hl : attrLookup (kv :: t) k = attrLookup t k := by
        simp only [attrLookup]
        rw [List.find?_cons_of_neg]
        simp [hk]
      rw [ih _ hnd.2, hl]
      cases attrLookup t k with
      | some v => rfl
      | none => exact getValue_setValue_ne ds kv.1 k kv.2 hk

theorem attrLookup_filter_ne (l : List (String × DicomVal)) (q : (String × DicomVal) → Bool)
    (k : String) (h : ∀ kv : String × DicomVal, kv.1 = k → q kv = true) :
    attrLookup (l.filter q) k = attrLookup l k := by
  simp only [attrLookup, List.find?_filter]
  have hfun : (fun a : String × DicomVal => decide (q a = true ∧ (a.1 == k) = true))
      = fun kv : String × DicomVal => kv.1 == k := by
    funext kv
    by_cases hk : kv.1 = k
    · simp [hk, h kv hk]
    · simp [hk]
  rw [hfun]

theorem attrLookup_append (a b : List (String × DicomVal)) (k : String) :
    attrLookup (a ++ b) k =
      match attrLookup a k with
      | some v => some v
      | none => attrLookup b k := by
  simp only [attrLookup, List.find?_append]
  cases a.find? (fun kv => kv.1 == k) with
  | some kv => simp
  | none => simp

theorem dictUnion_keys_nodup (a b : List (String × DicomVal))
    (ha : (a.map Prod.fst).Nodup) (hb : (b.map Prod.fst).Nodup) :
    ((dictUnion a b).map Prod.fst).Nodup := by
  unfold dictUnion
  rw [List.map_append, List.nodup_append]
  refine ⟨List.Nodup.sublist ((List.filter_sublist a).map Prod.fst) ha, hb, ?_⟩
  intro x hx1 hx2
  rcases List.mem_map.mp hx1 with ⟨kv, hkv, hkvx⟩
  rcases List.mem_filter.mp hkv with ⟨_, hq⟩
  rcases List.mem_map.mp hx2 with ⟨kv2, hkv2, hkv2x⟩
  have hany : b.any (fun kv2 => kv2.1 == kv.1) = true :=
    List.any_eq_true.mpr ⟨kv2, hkv2, by simp [hkv2x, hkvx]⟩
  simp [hany] at hq

theorem attrLookup_dictUnion_left (a b : List (String × DicomVal)) (k : String)
    (hb : ∀ kv ∈ b, kv.1 ≠ k) :
    attrLookup (dictUnion a b) k = attrLookup a k := by
  unfold dictUnion
  rw [attrLookup_append]
  have hbnone : attrLookup b k = none := (attrLookup_eq_none_iff b k).mpr hb
  have hfa : attrLookup (a.filter fun kv => !(b.any fun kv2 => kv2.1 == kv.1)) k
      = attrLookup a k := by
    apply attrLookup_filter_ne
    intro kv hkv
    have : b.any (fun kv2 => kv2.1 == kv.1) = false := by
      rw [List.any_eq_false]
      intro kv2 hkv2
      simp [hkv, hb kv2 hkv2]
    simp [this]
  rw [hfa]
  cases attrLookup a k with
  | some v => rfl
  | none => simpa using hbnone

theorem attrLookup_dictUnion_right (a b : List (String × DicomVal)) (k : String)
    (ha : ∀ kv ∈ a, kv.1 ≠ k) :
    attrLookup (dictUnion a b) k = attrLookup b k := by
  unfold dictUnion
  rw [attrLookup_append]
  have hfa : attrLookup (a.filter fun kv => !(b.any fun kv2 => kv2.1 == kv.1)) k = none := by
    rw [attrLookup_eq_none_iff]
    intro kv hkv
    exact ha kv (List.mem_filter.mp hkv).1
  rw [hfa]

theorem attrLookup_dictUnion_of_bkey (a b : List (String × DicomVal)) (k : String)
    (hbk : (b.any fun kv => kv.1 == k) = true) :
    attrLookup (dictUnion a b) k = attrLookup b k := by
  unfold dictUnion
  rw [attrLookup_append]
  have hfa : attrLookup (a.filter fun kv => !(b.any fun kv2 => kv2.1 == kv.1)) k = none := by
    rw [attrLookup_eq_none_iff]
    intro kv hkv hk
    rcases List.mem_filter.mp hkv with ⟨_, hq⟩
    rw [hk] at hq
    simp [hbk] at hq
  rw [hfa]

theorem mem_dictUnion (a b : List (String × DicomVal)) (kv : String × DicomVal)
    (h : kv ∈ dictUnion a b) : kv ∈ a ∨ kv ∈ b := by
  rcases List.mem_append.mp h with h1 | h1
  · exact Or.inl (List.mem_filter.mp h1).1
  · exact Or.inr h1

theorem writeDataset_reg (st : DbState) (ds : Dataset) (attr : List (String × DicomVal))
    (nr : Int) : (writeDataset st ds attr nr).1.reg = st.reg := rfl

theorem recordOfDataset_instanceNumber (ds : Dataset) :
    (recordOfDataset ds).instanceNumber = getIntD ds "InstanceNumber" (-1) := rfl

theorem recordOfDataset_seriesInstanceUID (ds : Dataset) :
    (recordOfDataset ds).seriesInstanceUID = getStrD ds "SeriesInstanceUID" "" := rfl

theorem stampPair_lookup_in (s : String) (nr : Int) :
    attrLookup (stampPair s nr) "InstanceNumber" = some (DicomVal.int nr) := rfl

theorem stampPair_keys (s : String) (nr : Int) :
    ∀ kv ∈ stampPair s nr, kv.1 = "SOPInstanceUID" ∨ kv.1 = "InstanceNumber" := by
  intro kv hkv
  rcases List.mem_cons.mp hkv with h | h
  · exact Or.inl (by rw [h])
  · rcases List.mem_cons.mp h with h2 | h2
    · exact Or.inr (by rw [h2])
    · simp at h2

theorem writeDataset_eq (st : DbState) (ds : Dataset) (attr : List (String × DicomVal))
    (nr : Int) :
    writeDataset st ds attr nr =
      ({ st with
          uidSeq := st.uidSeq + 2,
          disk := st.disk ++ [("dbdicom/" ++ (newUid { st with uidSeq := st.uidSeq + 1 }).1 ++ ".dcm",
            applyAttrs ds (dictUnion attr (stampPair (newUid st).1 nr)))] },
       applyAttrs ds (dictUnion attr (stampPair (newUid st).1 nr)),
       ("dbdicom/" ++ (newUid { st with uidSeq := st.uidSeq + 1 }).1 ++ ".dcm",
        recordOfDataset (applyAttrs ds (dictUnion attr (stampPair (newUid st).1 nr))))) := rfl

theorem writeDataset_row (st : DbState) (ds : Dataset) (attr : List (String × DicomVal))
    (nr : Int) (v : DicomVal) (hnd : (attr.map Prod.fst).Nodup)
    (hv : attrLookup attr "SeriesInstanceUID" = some v) :
    (writeDataset st ds attr nr).2.2.2.instanceNumber = nr ∧
    (writeDataset st ds attr nr).2.2.2.seriesInstanceUID = strOf v := by
  rw [writeDataset_eq]
  have hbnd : ((stampPair (newUid st).1 nr).map Prod.fst).Nodup := by
    simp [stampPair]
  have hfnd := dictUnion_keys_nodup attr _ hnd hbnd
  constructor
  · rw [recordOfDataset_instanceNumber]
    unfold getIntD
    rw [getValue_applyAttrs _ _ _ hfnd]
    rw [attrLookup_dictUnion_of_bkey attr _ _ (by simp [stampPair])]
    rw [stampPair_lookup_in]
  · rw [recordOfDataset_seriesInstanceUID]
    unfold getStrD
    rw [getValue_applyAttrs _ _ _ hfnd]
    rw [attrLookup_dictUnion_left attr _ _ ?hb]
    case hb =>
      intro kv hkv
      rcases stampPair_keys _ _ kv hkv with h | h <;> simp [h]
    rw [hv]
    cases v <;> rfl

theorem getValue_applyAttrs_last (ds : Dataset) (l : List (String × DicomVal)) (k : String)
    (v : DicomVal) : getValue (applyAttrs ds (l ++ [(k, v)])) k = v := by
  unfold applyAttrs
  rw [List.foldl_append]
  exact getValue_setValue_self _ _ _

theorem writeDataset_instanceNumber (st : DbState) (ds : Dataset)
    (attr : List (String × DicomVal)) (nr : Int) :
    (writeDataset st ds attr nr).2.2.2.instanceNumber = nr := by
  rw [writeDataset_eq, recordOfDataset_instanceNumber]
  unfold getIntD
  have hsplit : dictUnion attr (stampPair (newUid st).1 nr)
      = ((attr.filter fun kv => !((stampPair (newUid st).1 nr).any fun kv2 => kv2.1 == kv.1))
          ++ [("SOPInstanceUID", DicomVal.str (newUid st).1)])
        ++ [("InstanceNumber", DicomVal.int nr)] := by
    unfold dictUnion stampPair
    rw [List.append_assoc]
    rfl
  rw [hsplit, getValue_applyAttrs_last]

theorem patientAttributes_frame (st : DbState) (p : List String) :
    (patientAttributes st p).2.path = st.path ∧ (patientAttributes st p).2.reg = st.reg ∧
    (patientAttributes st p).2.disk = st.disk ∧ (patientAttributes st p).2.today = st.today := by
  unfold patientAttributes
  cases (registerFiles st.reg p).head?.bind (fun f => readDataset st f) with
  | some ds => exact ⟨rfl, rfl, rfl, rfl⟩
  | none => exact ⟨rfl, rfl, rfl, rfl⟩

theorem studyAttributes_frame (st : DbState) (e : List String) :
    (studyAttributes st e).2.path = st.path ∧ (studyAttributes st e).2.reg = st.reg ∧
    (studyAttributes st e).2.disk = st.disk ∧ (studyAttributes st e).2.today = st.today := by
  unfold studyAttributes
  have hp := patientAttributes_frame st (e.take 2)
  cases hpa : patientAttributes st (e.take 2) with
  | mk pattr st1 =>
    rw [hpa] at hp
    dsimp only
    cases (registerFiles st1.reg e).head?.bind (fun f => readDataset st1 f) with
    | some ds => exact hp
    | none => exact hp

theorem seriesAttributes_frame (st : DbState) (e : List String) :
    (seriesAttributes st e).2.path = st.path ∧ (seriesAttributes st e).2.reg = st.reg ∧
    (seriesAttributes st e).2.disk = st.disk ∧ (seriesAttributes st e).2.today = st.today := by
  unfold seriesAttributes
  have hp := studyAttributes_frame st (e.take 3)
  cases hpa : studyAttributes st (e.take 3) with
  | mk sattr st1 =>
    rw [hpa] at hp
    dsimp only
    cases (registerFiles st1.reg e).head?.bind (fun f => readDataset st1 f) with
    | some ds => exact hp
    | none => exact hp

theorem attributes_frame (st : DbState) (e : List String) (a : List (String × DicomVal))
    (st1 : DbState) (h : attributes st e = some (a, st1)) :
    st1.path = st.path ∧ st1.reg = st.reg ∧ st1.disk = st.disk ∧ st1.today = st.today := by
  unfold attributes at h
  split at h
  · have hh := Option.some.inj h
    have hf := seriesAttributes_frame st e
    rw [hh] at hf
    exact hf
  · split at h
    · have hh := Option.some.inj h
      have hf := studyAttributes_frame st e
      rw [hh] at hf
      exact hf
    · split at h
      · have hh := Option.some.inj h
        have hf := patientAttributes_frame st e
        rw [hh] at hf
        exact hf
      · cases h

theorem writeFilesLoop_ok (attr : List (String × DicomVal)) (n : Int) :
    ∀ (files : List String) (st : DbState) (i : Nat)
      (rows : List (String × CatalogRecord)) (out : DbState × List (String × CatalogRecord)),
      writeFilesLoop attr n st i rows files = .ok out →
      out.1.reg = st.reg ∧
      ∃ newr, out.2 = rows ++ newr ∧ newr.length = files.length ∧
        (∀ pr ∈ newr, n + 1 + (i : Int) ≤ pr.2.instanceNumber) ∧
        (∀ v, attrLookup attr "SeriesInstanceUID" = some v → (attr.map Prod.fst).Nodup →
          ∀ pr ∈ newr, pr.2.seriesInstanceUID = strOf v) ∧
        newr.Pairwise (fun a b => a.2.instanceNumber < b.2.instanceNumber) := by
  intro files
  induction files with
  | nil =>
    intro st i rows out h
    cases h
    exact ⟨rfl, [], by simp, by simp, by simp, by simp, by simp⟩
  | cons f fs ih =>
    intro st i rows out h
    unfold writeFilesLoop at h
    cases hread : readDataset st f with
    | none => rw [hread] at h; cases h
    | some ds =>
      rw [hread] at h
      rcases ih _ _ _ _ h with ⟨hreg, newr, hrows, hlen, hlow, hsuid, hpw⟩
      have hrow : (writeDataset st ds attr (n + 1 + (i : Int))).2.2.2.instanceNumber
          = n + 1 + (i : Int) := writeDataset_instanceNumber _ _ _ _
      refine ⟨by rw [hreg, writeDataset_reg], (writeDataset st ds attr (n + 1 + (i : Int))).2.2 :: newr,
        by simpa using hrows, by simpa using hlen, ?_, ?_, ?_⟩
      · intro pr hpr
        rcases List.mem_cons.mp hpr with h1 | h1
        · rw [h1, hrow]
        · have := hlow pr h1
          push_cast at this ⊢
          omega
      · intro v hv hnd pr hpr
        rcases List.mem_cons.mp hpr with h1 | h1
        · rw [h1]
          exact (writeDataset_row st ds attr _ v hnd hv).2
        · exact hsuid v hv hnd pr h1
      · refine List.Pairwise.cons ?_ hpw
        intro b hb
        have := hlow b hb
        rw [hrow]
        push_cast at this ⊢
        omega

theorem filesToSeries_ok (st : DbState) (files tgt : List String) (st2 : DbState)
    (h : filesToSeries st files tgt = .ok st2) :
    ∃ rows, st2.reg = st.reg ++ rows ∧ rows.length = files.length ∧
      (∀ pr ∈ rows, pr.2.created = true ∧ pr.2.removed = false) := by
  unfold filesToSeries at h
  cases hst : seriesTarget st tgt with
  | error m => rw [hst] at h; cases h
  | ok res =>
    rw [hst] at h
    obtain ⟨attr, suid, st1⟩ := res
    dsimp only at h
    cases hloop : writeFilesLoop attr (maxInstanceNumber st1.reg suid) st1 0 [] files with
    | error m => rw [hloop] at h; cases h
    | ok out =>
      rw [hloop] at h
      rcases writeFilesLoop_ok attr _ files st1 0 [] out hloop with ⟨hreg, newr, hrows, hlen, _, _, _⟩
      have hst1 : st1.reg = st.reg := by
        unfold seriesTarget at hst
        cases hattr : attributes st tgt with
        | none => rw [hattr] at hst; cases hst
        | some p =>
          rw [hattr] at hst
          obtain ⟨a, stx⟩ := p
          dsimp only at hst
          cases hlk : attrLookup a "SeriesInstanceUID" with
          | none => rw [hlk] at hst; cases hst
          | some v =>
            rw [hlk] at hst
            have hfr := (attributes_frame st tgt a stx hattr).2.1
            cases hst
            exact hfr
      cases h
      refine ⟨(out.2.map fun pr => (pr.1, { pr.2 with removed := false, created := true })),
        ?_, by simp [hrows, hlen], ?_⟩
      · show (updateRegister out.1 out.2).reg = _
        unfold updateRegister
        rw [hreg, hst1]
      · intro pr hpr
        rcases List.mem_map.mp hpr with ⟨pr0, _, hpr0⟩
        rw [← hpr0]
        exact ⟨rfl, rfl⟩

theorem appendSession_reg (st0 st : DbState) (k : Nat) (h : AppendSession st0 st k) :
    ∃ extra, st.reg = st0.reg ++ extra ∧ extra.length = k ∧
      (∀ pr ∈ extra, pr.2.created = true ∧ pr.2.removed = false) := by
  induction h with
  | refl => exact ⟨[], by simp, rfl, by simp⟩
  | step st st' k files tgt hsess hstep ih =>
    rcases ih with ⟨extra, hreg, hlen, hflags⟩
    rcases filesToSeries_ok st files tgt st' hstep with ⟨rows, hreg2, hlen2, hflags2⟩
    refine ⟨extra ++ rows, by rw [hreg2, hreg, List.append_assoc], by simp [hlen, hlen2], ?_⟩
    intro pr hpr
    rcases List.mem_append.mp hpr with h1 | h1
    · exact hflags pr h1
    · exact hflags2 pr h1

theorem clearCreated_eq (r : CatalogRecord) (h : r.created = false) :
    { r with created := false } = r := by
  cases r
  simp_all

theorem clearRemoved_eq (r : CatalogRecord) (h : r.removed = false) :
    { r with removed := false } = r := by
  cases r
  simp_all

theorem close_deleted_eq (st : DbState) :
    (close st).2 = ((st.reg.filter fun pr => pr.2.removed).map (fun pr => pr.1)).filter
      (fun p => diskHas st.disk p) := rfl

theorem close_reg_eq (st : DbState) :
    (close st).1.reg = (st.reg.filter fun pr => !pr.2.removed).map
      (fun pr => if pr.2.created then (pr.1, { pr.2 with created := false }) else pr) := rfl

theorem close_disk_eq (st : DbState) :
    (close st).1.disk = st.disk.filter
      (fun fd => !(((st.reg.filter fun pr => pr.2.removed).map (fun pr => pr.1)).contains fd.1)) := rfl

theorem mem_flagPaths (reg : Register) (q : CatalogRecord → Bool) (p : String) :
    (p ∈ (reg.filter fun pr => q pr.2).map (fun pr => pr.1)) ↔ ∃ r, (p, r) ∈ reg ∧ q r = true := by
  simp only [List.mem_map, List.mem_filter]
  constructor
  · rintro ⟨pr, ⟨hmem, hq⟩, rfl⟩
    exact ⟨pr.2, by simpa using hmem, hq⟩
  · rintro ⟨r, hmem, hq⟩
    exact ⟨(p, r), ⟨hmem, hq⟩, rfl⟩

theorem diskHas_iff (disk : List (String × Dataset)) (p : String) :
    diskHas disk p = true ↔ ∃ d, (p, d) ∈ disk := by
  simp only [diskHas, List.any_eq_true]
  constructor
  · rintro ⟨fd, hfd, hp⟩
    have h1 : fd.1 = p := by simpa using hp
    exact ⟨fd.2, by rw [← h1]; simpa using hfd⟩
  · rintro ⟨d, hd⟩
    exact ⟨(p, d), hd, by simp⟩

/-- Claim C2: close deletes from disk exactly the files of records with
removed=true that are present on disk, keeps exactly the non-removed
records with their created flag cleared, and after a session of appends
on a clean state deletes nothing and grows the record count by the
number of appends (dbd.py:63-88; snapshot pickling is external). -/
theorem close_commit (st : DbState) :
    (∀ p, p ∈ (close st).2 ↔
      ((∃ r, (p, r) ∈ st.reg ∧ r.removed = true) ∧ ∃ d, (p, d) ∈ st.disk)) ∧
    (∀ p r, (p, r) ∈ (close st).1.reg ↔
      ∃ r0, (p, r0) ∈ st.reg ∧ r0.removed = false ∧ r = { r0 with created := false }) ∧
    (∀ fd, fd ∈ (close st).1.disk ↔
      fd ∈ st.disk ∧ ¬ ∃ r, (fd.1, r) ∈ st.reg ∧ r.removed = true) ∧
    (∀ st0 k, (∀ pr ∈ st0.reg, pr.2.removed = false ∧ pr.2.created = false) →
      AppendSession st0 st k →
      (close st).2 = [] ∧ (close st).1.reg.length = st0.reg.length + k ∧
      ∀ pr ∈ (close st).1.reg, pr.2.created = false) := by
  refine ⟨?_, ?_, ?_, ?_⟩
  · intro p
    rw [close_deleted_eq]
    rw [List.mem_filter]
    rw [mem_flagPaths st.reg (fun r => r.removed) p]
    rw [show (diskHas st.disk p = true ↔ ∃ d, (p, d) ∈ st.disk) from diskHas_iff _ _]
  · intro p r
    rw [close_reg_eq]
    simp only [List.mem_map, List.mem_filter]
    constructor
    · rintro ⟨pr, ⟨hmem, hnr⟩, hf⟩
      cases hc : pr.2.created with
      | true =>
        rw [hc, if_pos rfl] at hf
        cases hf
        exact ⟨pr.2, by simpa using hmem, by simpa using hnr, rfl⟩
      | false =>
        rw [hc] at hf
        simp only [Bool.false_eq_true, if_false] at hf
        cases hf
        refine ⟨r, by simpa using hmem, by simpa using hnr, ?_⟩
        rw [clearCreated_eq r hc]
    · rintro ⟨r0, hmem, hnr, rfl⟩
      refine ⟨(p, r0), ⟨hmem, by simp [hnr]⟩, ?_⟩
      cases hc : r0.created with
      | true => simp [hc]
      | false =>
        simp only [hc, Bool.false_eq_true, if_false]
        rw [clearCreated_eq r0 hc]
  · intro fd
    rw [close_disk_eq]
    rw [List.mem_filter]
    have hcont : ((st.reg.filter fun pr => pr.2.removed).map (fun pr => pr.1)).contains fd.1
        = true ↔ ∃ r, (fd.1, r) ∈ st.reg ∧ r.removed = true := by
      rw [← mem_flagPaths st.reg (fun r => r.removed) fd.1]
      simp
    constructor
    · rintro ⟨hmem, hnc⟩
      refine ⟨hmem, ?_⟩
      intro hex
      rw [← hcont] at hex
      rw [hex] at hnc
      simp at hnc
    · rintro ⟨hmem, hnex⟩
      refine ⟨hmem, ?_⟩
      cases hc : ((st.reg.filter fun pr => pr.2.removed).map (fun pr => pr.1)).contains fd.1 with
      | true => exact absurd (hcont.mp hc) hnex
      | false => rfl
  · intro st0 k hclean hsess
    rcases appendSession_reg st0 st k hsess with ⟨extra, hreg, hlen, hflags⟩
    have hnorem : ∀ pr ∈ st.reg, pr.2.removed = false := by
      intro pr hpr
      rw [hreg] at hpr
      rcases List.mem_append.mp hpr with h1 | h1
      · exact (hclean pr h1).1
      · exact (hflags pr h1).2
    have hfilter : st.reg.filter (fun pr => pr.2.removed) = [] := by
      rw [List.filter_eq_nil_iff]
      intro pr hpr
      simp [hnorem pr hpr]
    have hfilter2 : st.reg.filter (fun pr => !pr.2.removed) = st.reg := by
      rw [List.filter_eq_self]
      intro pr hpr
      simp [hnorem pr hpr]
    refine ⟨?_, ?_, ?_⟩
    · rw [close_deleted_eq, hfilter]
      rfl
    · rw [close_reg_eq, hfilter2, List.length_map, hreg, List.length_append, hlen]
    · intro pr hpr
      rw [close_reg_eq] at hpr
      rcases List.mem_map.mp hpr with ⟨pr0, _, hf⟩
      cases hc : pr0.2.created with
      | true =>
        rw [hc, if_pos rfl] at hf
        rw [← hf]
      | false =>
        rw [hc] at hf
        simp only [Bool.false_eq_true, if_false] at hf
        rw [← hf]
        exact hc

theorem restore_deleted_eq (st : DbState) :
    (restore st).2 = ((st.reg.filter fun pr => pr.2.created).map (fun pr => pr.1)).filter
      (fun p => diskHas st.disk p) := rfl

theorem restore_reg_eq (st : DbState) :
    (restore st).1.reg = (st.reg.filter fun pr => !pr.2.created).map
      (fun pr => if pr.2.removed && !pr.2.created then (pr.1, { pr.2 with removed := false })
        else pr) := rfl

theorem restore_disk_eq (st : DbState) :
    (restore st).1.disk = st.disk.filter
      (fun fd => !(((st.reg.filter fun pr => pr.2.created).map (fun pr => pr.1)).contains fd.1)) := rfl

/-- Claim C3, counterexample: a record with created=true and removed=true
is dropped from the register and its file deleted by restore, whereas the
claim says only records with created=true and removed=false are dropped
and this one would instead keep its row with the removed flag cleared
(dbd.py:94 filters on created alone). -/
theorem restore_claim_counterexample :
    cexRec.created = true ∧ cexRec.removed = true ∧
    ¬ (("f.dcm", cexRec) ∈ (restore cexSt).1.reg) ∧
    (restore cexSt).1.reg = [] ∧ (restore cexSt).2 = ["f.dcm"] ∧
    (restore cexSt).1.disk = [] := by decide

/-- Claim C3, amended: restore deletes from disk and drops from the
register exactly the records with created=true regardless of the removed
flag, clears removed on the surviving records, and after an append-only
session on a clean state returns the record count to its pre-session
value with every appended file gone from disk (dbd.py:91-114). -/
theorem restore_rollback (st : DbState) :
    (∀ p, p ∈ (restore st).2 ↔
      ((∃ r, (p, r) ∈ st.reg ∧ r.created = true) ∧ ∃ d, (p, d) ∈ st.disk)) ∧
    (∀ p r, (p, r) ∈ (restore st).1.reg ↔
      ∃ r0, (p, r0) ∈ st.reg ∧ r0.created = false ∧ r = { r0 with removed := false }) ∧
    (∀ fd, fd ∈ (restore st).1.disk ↔
      fd ∈ st.disk ∧ ¬ ∃ r, (fd.1, r) ∈ st.reg ∧ r.created = true) ∧
    (∀ st0 k, (∀ pr ∈ st0.reg, pr.2.removed = false ∧ pr.2.created = false) →
      AppendSession st0 st k →
      (restore st).1.reg.length = st0.reg.length ∧
      ∀ pr ∈ st.reg, pr.2.created = true → diskHas (restore st).1.disk pr.1 = false) := by
  refine ⟨?_, ?_, ?_, ?_⟩
  · intro p
    rw [restore_deleted_eq]
    rw [List.mem_filter]
    rw [mem_flagPaths st.reg (fun r => r.created) p]
    rw [show (diskHas st.disk p = true ↔ ∃ d, (p, d) ∈ st.disk) from diskHas_iff _ _]
  · intro p r
    rw [restore_reg_eq]
    simp only [List.mem_map, List.mem_filter]
    constructor
    · rintro ⟨pr, ⟨hmem, hnc⟩, hf⟩
      cases hr : pr.2.removed with
      | true =>
        rw [hr, Bool.true_and] at hf
        rw [if_pos hnc] at hf
        cases hf
        exact ⟨pr.2, by simpa using hmem, by simpa using hnc, rfl⟩
      | false =>
        rw [hr, Bool.false_and] at hf
        simp only [Bool.false_eq_true, if_false] at hf
        cases hf
        refine ⟨r, by simpa using hmem, by simpa using hnc, ?_⟩
        rw [clearRemoved_eq r hr]
    · rintro ⟨r0, hmem, hnc, rfl⟩
      refine ⟨(p, r0), ⟨hmem, by simp [hnc]⟩, ?_⟩
      cases hr : r0.removed with
      | true => simp [hr, hnc]
      | false =>
        simp only [hr, Bool.false_and, Bool.false_eq_true, if_false]
        rw [clearRemoved_eq r0 hr]
  · intro fd
    rw [restore_disk_eq]
    rw [List.mem_filter]
    have hcont : ((st.reg.filter fun pr => pr.2.created).map (fun pr => pr.1)).contains fd.1
        = true ↔ ∃ r, (fd.1, r) ∈ st.reg ∧ r.created = true := by
      rw [← mem_flagPaths st.reg (fun r => r.created) fd.1]
      simp
    constructor
    · rintro ⟨hmem, hnc⟩
      refine ⟨hmem, ?_⟩
      intro hex
      rw [← hcont] at hex
      rw [hex] at hnc
      simp at hnc
    · rintro ⟨hmem, hnex⟩
      refine ⟨hmem, ?_⟩
      cases hc : ((st.reg.filter fun pr => pr.2.created).map (fun pr => pr.1)).contains fd.1 with
      | true => exact absurd (hcont.mp hc) hnex
      | false => rfl
  · intro st0 k hclean hsess
    rcases appendSession_reg st0 st k hsess with ⟨extra, hreg, hlen, hflags⟩
    constructor
    · rw [restore_reg_eq, List.length_map, hreg, List.filter_append]
      have h1 : st0.reg.filter (fun pr => !pr.2.created) = st0.reg := by
        rw [List.filter_eq_self]
        intro pr hpr
        simp [(hclean pr hpr).2]
      have h2 : extra.filter (fun pr => !pr.2.created) = [] := by
        rw [List.filter_eq_nil_iff]
        intro pr hpr
        simp [(hflags pr hpr).1]
      rw [h1, h2, List.append_nil]
    · intro pr hpr hcr
      cases hd : diskHas (restore st).1.disk pr.1 with
      | false => rfl
      | true =>
        exfalso
        rcases diskHas_iff _ _ |>.mp hd with ⟨d, hmem⟩
        rw [restore_disk_eq] at hmem
        rcases List.mem_filter.mp hmem with ⟨_, hnc⟩
        have hin : pr.1 ∈ (st.reg.filter fun pr2 => pr2.2.created).map (fun pr2 => pr2.1) :=
          (mem_flagPaths st.reg (fun r => r.created) pr.1).mpr
            ⟨pr.2, by simpa using hpr, hcr⟩
        have : ((st.reg.filter fun pr2 => pr2.2.created).map (fun pr2 => pr2.1)).contains
            ((pr.1, d) : String × Dataset).1 = true := by
          simpa using hin
        rw [this] at hnc
        simp at hnc

theorem demoApp_step : filesToSeries demoSt ["a.dcm"] demoTgt = .ok demoApp := rfl

theorem close_commit_witness :
    (close demoApp).2 = [] ∧
    (close demoApp).1.reg.length = demoSt.reg.length + (0 + ["a.dcm"].length) ∧
    ∀ pr ∈ (close demoApp).1.reg, pr.2.created = false :=
  (close_commit demoApp).2.2.2 demoSt (0 + ["a.dcm"].length) (by decide)
    (AppendSession.step demoSt demoSt demoApp 0 ["a.dcm"] demoTgt
      (AppendSession.refl demoSt) demoApp_step)

theorem restore_rollback_witness :
    (restore demoApp).1.reg.length = demoSt.reg.length ∧
    ∀ pr ∈ demoApp.reg, pr.2.created = true →
      diskHas (restore demoApp).1.disk pr.1 = false :=
  (restore_rollback demoApp).2.2.2 demoSt (0 + ["a.dcm"].length) (by decide)
    (AppendSession.step demoSt demoSt demoApp 0 ["a.dcm"] demoTgt
      (AppendSession.refl demoSt) demoApp_step)

/-- Claim C4: copy with addresses of unequal depth, or of a common depth
outside 2, 3 and 4, fails with a shape-mismatch error and performs no
mutation: the returned state is the input state, register and disk
untouched (dbd.py:441-471). -/
theorem copy_shape_mismatch (st : DbState) (fromE toE : List String)
    (h : ¬ (fromE.length = toE.length ∧
        (fromE.length = 2 ∨ fromE.length = 3 ∨ fromE.length = 4))) :
    ∃ msg, copy st fromE toE = (st, some msg) := by
  unfold copy
  by_cases h4 : fromE.length = 4
  · have ht : toE.length ≠ 4 := fun hc => h ⟨by omega, Or.inr (Or.inr h4)⟩
    rw [if_pos h4, if_pos ht]
    exact ⟨_, rfl⟩
  · rw [if_neg h4]
    by_cases h3 : fromE.length = 3
    · have ht : toE.length ≠ 3 := fun hc => h ⟨by omega, Or.inr (Or.inl h3)⟩
      rw [if_pos h3, if_pos ht]
      exact ⟨_, rfl⟩
    · rw [if_neg h3]
      by_cases h2 : fromE.length = 2
      · have ht : toE.length ≠ 2 := fun hc => h ⟨by omega, Or.inl h2⟩
        rw [if_pos h2, if_pos ht]
        exact ⟨_, rfl⟩
      · rw [if_neg h2]
        exact ⟨_, rfl⟩

theorem copy_shape_mismatch_witness :
    ∃ msg, copy demoSt ["db", "P", "S", "T1"] ["db", "P", "S"] = (demoSt, some msg) :=
  copy_shape_mismatch demoSt ["db", "P", "S", "T1"] ["db", "P", "S"] (by decide)

theorem omitNull_nonull (l : List (String × DicomVal)) :
    ∀ kv ∈ omitNull l, kv.2 ≠ DicomVal.null := by
  intro kv h hnull
  rcases List.mem_filter.mp h with ⟨_, hq⟩
  rw [hnull] at hq
  simp [DicomVal.isNull] at hq

theorem dictUnion_nonull (a b : List (String × DicomVal))
    (ha : ∀ kv ∈ a, kv.2 ≠ DicomVal.null) (hb : ∀ kv ∈ b, kv.2 ≠ DicomVal.null) :
    ∀ kv ∈ dictUnion a b, kv.2 ≠ DicomVal.null :=
  fun kv h => (mem_dictUnion a b kv h).elim (ha kv) (hb kv)

theorem patientAttributes_nonull (st : DbState) (p : List String) :
    ∀ kv ∈ (patientAttributes st p).1, kv.2 ≠ DicomVal.null := by
  unfold patientAttributes
  cases (registerFiles st.reg p).head?.bind (fun f => readDataset st f) with
  | some ds => exact omitNull_nonull _
  | none => exact omitNull_nonull _

theorem studyAttributes_nonull (st : DbState) (e : List String) :
    ∀ kv ∈ (studyAttributes st e).1, kv.2 ≠ DicomVal.null := by
  unfold studyAttributes
  have hp := patientAttributes_nonull st (e.take 2)
  cases hpa : patientAttributes st (e.take 2) with
  | mk pattr st1 =>
    rw [hpa] at hp
    dsimp only
    cases (registerFiles st1.reg e).head?.bind (fun f => readDataset st1 f) with
    | some ds => exact dictUnion_nonull _ _ hp (omitNull_nonull _)
    | none => exact dictUnion_nonull _ _ hp (omitNull_nonull _)

theorem seriesAttributes_nonull (st : DbState) (e : List String) :
    ∀ kv ∈ (seriesAttributes st e).1, kv.2 ≠ DicomVal.null := by
  unfold seriesAttributes
  have hp := studyAttributes_nonull st (e.take 3)
  cases hpa : studyAttributes st (e.take 3) with
  | mk sattr st1 =>
    rw [hpa] at hp
    dsimp only
    cases (registerFiles st1.reg e).head?.bind (fun f => readDataset st1 f) with
    | some ds => exact dictUnion_nonull _ _ hp (omitNull_nonull _)
    | none => exact dictUnion_nonull _ _ hp (omitNull_nonull _)

theorem patientAttributes_keys (st : DbState) (p : List String) :
    ∀ kv ∈ (patientAttributes st p).1, kv.1 = "PatientID" ∨ kv.1 = "PatientName" := by
  unfold patientAttributes
  cases (registerFiles st.reg p).head?.bind (fun f => readDataset st f) with
  | some ds =>
    intro kv h
    rcases List.mem_filter.mp h with ⟨hmem, _⟩
    rcases List.mem_map.mp hmem with ⟨aName, haN, hkv⟩
    rw [← hkv]
    simpa [PATIENT_MODULE] using haN
  | none =>
    intro kv h
    rcases List.mem_filter.mp h with ⟨hmem, _⟩
    rcases List.mem_cons.mp hmem with h1 | h1
    · exact Or.inl (by rw [h1])
    · rcases List.mem_cons.mp h1 with h2 | h2
      · exact Or.inr (by rw [h2])
      · simp at h2

theorem studyAttributes_keys (st : DbState) (e : List String) :
    ∀ kv ∈ (studyAttributes st e).1,
      kv.1 = "PatientID" ∨ kv.1 = "PatientName" ∨ kv.1 = "StudyInstanceUID" ∨
      kv.1 = "StudyDescription" ∨ kv.1 = "StudyDate" := by
  unfold studyAttributes
  have hp := patientAttributes_keys st (e.take 2)
  cases hpa : patientAttributes st (e.take 2) with
  | mk pattr st1 =>
    rw [hpa] at hp
    dsimp only
    cases (registerFiles st1.reg e).head?.bind (fun f => readDataset st1 f) with
    | some ds =>
      intro kv h
      rcases mem_dictUnion _ _ kv h with h1 | h1
      · rcases hp kv h1 with h2 | h2
        · exact Or.inl h2
        · exact Or.inr (Or.inl h2)
      · rcases List.mem_filter.mp h1 with ⟨hmem, _⟩
        rcases List.mem_map.mp hmem with ⟨aName, haN, hkv⟩
        rw [← hkv]
        simp only [STUDY_MODULE] at haN
        rcases List.mem_cons.mp haN with h2 | h2
        · exact Or.inr (Or.inr (Or.inl (by rw [h2])))
        · rcases List.mem_cons.mp h2 with h3 | h3
          · exact Or.inr (Or.inr (Or.inr (Or.inl (by rw [h3]))))
          · rcases List.mem_cons.mp h3 with h4 | h4
            · exact Or.inr (Or.inr (Or.inr (Or.inr (by rw [h4]))))
            · simp at h4
    | none =>
      intro kv h
      rcases mem_dictUnion _ _ kv h with h1 | h1
      · rcases hp kv h1 with h2 | h2
        · exact Or.inl h2
        · exact Or.inr (Or.inl h2)
      · rcases List.mem_filter.mp h1 with ⟨hmem, _⟩
        rcases List.mem_cons.mp hmem with h2 | h2
        · exact Or.inr (Or.inr (Or.inl (by rw [h2])))
        · rcases List.mem_cons.mp h2 with h3 | h3
          · exact Or.inr (Or.inr (Or.inr (Or.inl (by rw [h3]))))
          · rcases List.mem_cons.mp h3 with h4 | h4
            · exact Or.inr (Or.inr (Or.inr (Or.inr (by rw [h4]))))
            · simp at h4

theorem patientAttributes_synth_lookup (st : DbState) (p : List String)
    (hempty : registerFiles st.reg p = []) :
    (∃ u, attrLookup (patientAttributes st p).1 "PatientID" = some (DicomVal.str u)) ∧
    attrLookup (patientAttributes st p).1 "PatientName"
      = some (DicomVal.str (p.getLastD "")) := by
  unfold patientAttributes
  rw [hempty]
  simp only [List.head?_nil, Option.none_bind]
  exact ⟨⟨(newUid st).1, rfl⟩, rfl⟩

theorem studyAttributes_synth_lookup (st : DbState) (e : List String)
    (hempty : registerFiles st.reg e = []) :
    (∃ u, attrLookup (studyAttributes st e).1 "StudyInstanceUID" = some (DicomVal.str u)) ∧
    attrLookup (studyAttributes st e).1 "StudyDescription"
      = some (DicomVal.str (e.getLastD "")) ∧
    attrLookup (studyAttributes st e).1 "StudyDate" = some (DicomVal.str st.today) := by
  unfold studyAttributes
  have hfr := patientAttributes_frame st (e.take 2)
  have hks := patientAttributes_keys st (e.take 2)
  cases hpa : patientAttributes st (e.take 2) with
  | mk pattr st1 =>
    rw [hpa] at hfr hks
    dsimp only
    rw [hfr.2.1, hempty]
    simp only [List.head?_nil, Option.none_bind]
    have hkey : ∀ k : String, k = "StudyInstanceUID" ∨ k = "StudyDescription" ∨ k = "StudyDate" →
        ∀ kv ∈ pattr, kv.1 ≠ k := by
      intro k hk kv hkv
      rcases hks kv hkv with h1 | h1 <;>
        rcases hk with h2 | h2 | h2 <;> simp [h1, h2]
    have htoday : (newUid st1).2.today = st.today := hfr.2.2.2
    refine ⟨⟨(newUid st1).1, ?_⟩, ?_, ?_⟩
    · rw [attrLookup_dictUnion_right _ _ _ (hkey _ (Or.inl rfl))]
      rfl
    · rw [attrLookup_dictUnion_right _ _ _ (hkey _ (Or.inr (Or.inl rfl)))]
      rfl
    · rw [attrLookup_dictUnion_right _ _ _ (hkey _ (Or.inr (Or.inr rfl)))]
      rw [show (newUid st1).2.today = st.today from htoday]
      rfl

theorem seriesAttributes_synth_lookup (st : DbState) (e : List String)
    (hempty : registerFiles st.reg e = []) :
    (∃ u, attrLookup (seriesAttributes st e).1 "SeriesInstanceUID" = some (DicomVal.str u)) ∧
    attrLookup (seriesAttributes st e).1 "SeriesDescription"
      = some (DicomVal.str (e.getLastD "")) ∧
    attrLookup (seriesAttributes st e).1 "SeriesNumber" = some (DicomVal.int
      (match studyUidOf st.reg e.dropLast with
       | some uid => 1 + maxSeriesNumber st.reg uid
       | none => 1)) := by
  unfold seriesAttributes
  have hfr := studyAttributes_frame st (e.take 3)
  have hks := studyAttributes_keys st (e.take 3)
  cases hpa : studyAttributes st (e.take 3) with
  | mk sattr st1 =>
    rw [hpa] at hfr hks
    dsimp only
    rw [hfr.2.1, hempty]
    simp only [List.head?_nil, Option.none_bind]
    have hkey : ∀ k : String,
        k = "SeriesInstanceUID" ∨ k = "SeriesDescription" ∨ k = "SeriesNumber" →
        ∀ kv ∈ sattr, kv.1 ≠ k := by
      intro k hk kv hkv
      rcases hks kv hkv with h1 | h1 | h1 | h1 | h1 <;>
        rcases hk with h2 | h2 | h2 <;> simp [h1, h2]
    refine ⟨⟨(newUid st1).1, ?_⟩, ?_, ?_⟩
    · rw [attrLookup_dictUnion_right _ _ _ (hkey _ (Or.inl rfl))]
      rfl
    · rw [attrLookup_dictUnion_right _ _ _ (hkey _ (Or.inr (Or.inl rfl)))]
      rfl
    · rw [attrLookup_dictUnion_right _ _ _ (hkey _ (Or.inr (Or.inr rfl)))]
      rfl

/-- Claim C5: attribute resolution never fails on a depth 2, 3 or 4
address; when the addressed entity has no files it synthesizes a fresh
UID at its own level, takes the description from the last address
element, assigns SeriesNumber = 1 + the maximum non-removed SeriesNumber
of the parent study (1 if the study is unknown), assigns StudyDate = the
current date for a study, and omits null-valued attributes
(dbd.py:555-561 and dbd.py:615-635). -/
theorem attribute_resolution (st : DbState) (e : List String)
    (hd : e.length = 2 ∨ e.length = 3 ∨ e.length = 4) :
    ∃ a st1, attributes st e = some (a, st1) ∧
      (∀ kv ∈ a, kv.2 ≠ DicomVal.null) ∧
      (e.length = 4 → registerFiles st.reg e = [] →
        (∃ u, attrLookup a "SeriesInstanceUID" = some (DicomVal.str u)) ∧
        attrLookup a "SeriesDescription" = some (DicomVal.str (e.getLastD "")) ∧
        attrLookup a "SeriesNumber" = some (DicomVal.int
          (match studyUidOf st.reg e.dropLast with
           | some uid => 1 + maxSeriesNumber st.reg uid
           | none => 1))) ∧
      (e.length = 3 → registerFiles st.reg e = [] →
        (∃ u, attrLookup a "StudyInstanceUID" = some (DicomVal.str u)) ∧
        attrLookup a "StudyDescription" = some (DicomVal.str (e.getLastD "")) ∧
        attrLookup a "StudyDate" = some (DicomVal.str st.today)) ∧
      (e.length = 2 → registerFiles st.reg e = [] →
        (∃ u, attrLookup a "PatientID" = some (DicomVal.str u)) ∧
        attrLookup a "PatientName" = some (DicomVal.str (e.getLastD ""))) := by
  by_cases h4 : e.length = 4
  · refine ⟨(seriesAttributes st e).1, (seriesAttributes st e).2, ?_, ?_, ?_, ?_, ?_⟩
    · unfold attributes
      rw [if_pos h4]
    · exact seriesAttributes_nonull st e
    · intro _ hempty
      exact seriesAttributes_synth_lookup st e hempty
    · intro h3 _
      omega
    · intro h2 _
      omega
  · by_cases h3 : e.length = 3
    · refine ⟨(studyAttributes st e).1, (studyAttributes st e).2, ?_, ?_, ?_, ?_, ?_⟩
      · unfold attributes
        rw [if_neg h4, if_pos h3]
      · exact studyAttributes_nonull st e
      · intro hx _
        omega
      · intro _ hempty
        exact studyAttributes_synth_lookup st e hempty
      · intro h2 _
        omega
    · have h2 : e.length = 2 := by omega
      refine ⟨(patientAttributes st e).1, (patientAttributes st e).2, ?_, ?_, ?_, ?_, ?_⟩
      · unfold attributes
        rw [if_neg h4, if_neg h3, if_pos h2]
      · exact patientAttributes_nonull st e
      · intro hx _
        omega
      · intro hx _
        omega
      · intro _ hempty
        exact patientAttributes_synth_lookup st e hempty

theorem attribute_resolution_witness :
    ∃ a st1, attributes demoSt ["db", "Q", "R", "T9"] = some (a, st1) ∧
      (∀ kv ∈ a, kv.2 ≠ DicomVal.null) ∧
      ((["db", "Q", "R", "T9"] : List String).length = 4 →
        registerFiles demoSt.reg ["db", "Q", "R", "T9"] = [] →
        (∃ u, attrLookup a "SeriesInstanceUID" = some (DicomVal.str u)) ∧
        attrLookup a "SeriesDescription" = some (DicomVal.str
          ((["db", "Q", "R", "T9"] : List String).getLastD "")) ∧
        attrLookup a "SeriesNumber" = some (DicomVal.int
          (match studyUidOf demoSt.reg (["db", "Q", "R", "T9"] : List String).dropLast with
           | some uid => 1 + maxSeriesNumber demoSt.reg uid
           | none => 1))) ∧
      ((["db", "Q", "R", "T9"] : List String).length = 3 →
        registerFiles demoSt.reg ["db", "Q", "R", "T9"] = [] →
        (∃ u, attrLookup a "StudyInstanceUID" = some (DicomVal.str u)) ∧
        attrLookup a "StudyDescription" = some (DicomVal.str
          ((["db", "Q", "R", "T9"] : List String).getLastD "")) ∧
        attrLookup a "StudyDate" = some (DicomVal.str demoSt.today)) ∧
      ((["db", "Q", "R", "T9"] : List String).length = 2 →
        registerFiles demoSt.reg ["db", "Q", "R", "T9"] = [] →
        (∃ u, attrLookup a "PatientID" = some (DicomVal.str u)) ∧
        attrLookup a "PatientName" = some (DicomVal.str
          ((["db", "Q", "R", "T9"] : List String).getLastD ""))) :=
  attribute_resolution demoSt ["db", "Q", "R", "T9"] (by decide)

theorem foldl_max_lb (x : Int) (xs : List Int) (c : Int) (hx : c ≤ x) :
    c ≤ xs.foldl max x := by
  induction xs generalizing x with
  | nil => exact hx
  | cons y ys ih => exact ih (max x y) (le_trans hx (le_max_left x y))

theorem le_foldl_max (x : Int) (xs : List Int) (y : Int) (h : y ∈ xs) :
    y ≤ xs.foldl max x := by
  induction xs generalizing x with
  | nil => cases h
  | cons z zs ih =>
    rcases List.mem_cons.mp h with rfl | h1
    · exact foldl_max_lb (max x y) zs y (le_max_right x y)
    · exact ih (max x z) h1

theorem maxInstanceNumber_nonneg (reg : Register) (u : String) (hge : NumsGE reg) :
    0 ≤ maxInstanceNumber reg u := by
  unfold maxInstanceNumber
  cases hns : ((reg.filter (fun pr => pr.2.seriesInstanceUID == u && !pr.2.removed)).map
      (fun pr => pr.2.instanceNumber)).filter (fun n => !(n == -1)) with
  | nil => simp
  | cons x xs =>
    have hxmem : x ∈ ((reg.filter (fun pr => pr.2.seriesInstanceUID == u && !pr.2.removed)).map
        (fun pr => pr.2.instanceNumber)).filter (fun n => !(n == -1)) := by
      rw [hns]; exact List.mem_cons_self x xs
    rcases List.mem_filter.mp hxmem with ⟨hxm, hxne⟩
    rcases List.mem_map.mp hxm with ⟨pr, hpr, hprx⟩
    have h1 : (-1 : Int) ≤ x := hprx ▸ hge pr (List.mem_filter.mp hpr).1
    have h2 : x ≠ -1 := by simpa using hxne
    exact foldl_max_lb x xs 0 (by omega)

theorem le_maxInstanceNumber (reg : Register) (u : String) (pr : String × CatalogRecord)
    (hpr : pr ∈ reg) (hnr : pr.2.removed = false) (hs : pr.2.seriesInstanceUID = u)
    (hne : pr.2.instanceNumber ≠ -1) :
    pr.2.instanceNumber ≤ maxInstanceNumber reg u := by
  unfold maxInstanceNumber
  have hmem : pr.2.instanceNumber ∈ ((reg.filter
      (fun pr => pr.2.seriesInstanceUID == u && !pr.2.removed)).map
      (fun pr => pr.2.instanceNumber)).filter (fun n => !(n == -1)) := by
    rw [List.mem_filter]
    exact ⟨List.mem_map_of_mem _ (List.mem_filter.mpr ⟨hpr, by simp [hs, hnr]⟩), by simp [hne]⟩
  cases hns : ((reg.filter (fun pr => pr.2.seriesInstanceUID == u && !pr.2.removed)).map
      (fun pr => pr.2.instanceNumber)).filter (fun n => !(n == -1)) with
  | nil => rw [hns] at hmem; cases hmem
  | cons x xs =>
    rw [hns] at hmem
    rcases List.mem_cons.mp hmem with heq | h1
    · rw [heq]
      exact foldl_max_lb x xs x le_rfl
    · exact le_foldl_max x xs _ h1

theorem filter_sublist_filter (l : Register) (p q : (String × CatalogRecord) → Bool)
    (h : ∀ a, p a = true → q a = true) : List.Sublist (l.filter p) (l.filter q) := by
  induction l with
  | nil => simp
  | cons x t ih =>
    by_cases hp : p x = true
    · rw [List.filter_cons_of_pos hp, List.filter_cons_of_pos (h x hp)]
      exact ih.cons₂ x
    · rw [List.filter_cons_of_neg (by simpa using hp)]
      by_cases hq : q x = true
      · rw [List.filter_cons_of_pos hq]
        exact ih.cons x
      · rw [List.filter_cons_of_neg (by simpa using hq)]
        exact ih

theorem writeVolumeLoop_out (attr : List (String × DicomVal)) (n : Int) :
    ∀ (slices : List (List (String × DicomVal))) (st : DbState) (ds : Dataset) (i : Nat)
      (rows : List (String × CatalogRecord)),
      (writeVolumeLoop attr n st ds i rows slices).1.reg = st.reg ∧
      ∃ newr, (writeVolumeLoop attr n st ds i rows slices).2 = rows ++ newr ∧
        newr.length = slices.length ∧
        (∀ pr ∈ newr, n + 1 + (i : Int) ≤ pr.2.instanceNumber) ∧
        (∀ v, attrLookup attr "SeriesInstanceUID" = some v → (attr.map Prod.fst).Nodup →
          ∀ pr ∈ newr, pr.2.seriesInstanceUID = strOf v) ∧
        newr.Pairwise (fun a b => a.2.instanceNumber < b.2.instanceNumber) := by
  intro slices
  induction slices with
  | nil =>
    intro st ds i rows
    refine ⟨rfl, [], ?_, by simp, by simp, by simp, by simp⟩
    show (st, rows).2 = rows ++ []
    simp
  | cons sl rest ih =>
    intro st ds i rows
    unfold writeVolumeLoop
    rcases ih (writeDataset st (applyAttrs ds sl) attr (n + 1 + (i : Int))).1
        (writeDataset st (applyAttrs ds sl) attr (n + 1 + (i : Int))).2.1 (i + 1)
        (rows ++ [(writeDataset st (applyAttrs ds sl) attr (n + 1 + (i : Int))).2.2])
      with ⟨hreg, newr, hrows, hlen, hlow, hsuid, hpw⟩
    have hrow : (writeDataset st (applyAttrs ds sl) attr (n + 1 + (i : Int))).2.2.2.instanceNumber
        = n + 1 + (i : Int) := writeDataset_instanceNumber _ _ _ _
    refine ⟨by rw [hreg, writeDataset_reg],
      (writeDataset st (applyAttrs ds sl) attr (n + 1 + (i : Int))).2.2 :: newr,
      by simpa using hrows, by simpa using hlen, ?_, ?_, ?_⟩
    · intro pr hpr
      rcases List.mem_cons.mp hpr with h1 | h1
      · rw [h1, hrow]
      · have := hlow pr h1
        push_cast at this ⊢
        omega
    · intro v hv hnd pr hpr
      rcases List.mem_cons.mp hpr with h1 | h1
      · rw [h1]
        exact (writeDataset_row st (applyAttrs ds sl) attr _ v hnd hv).2
      · exact hsuid v hv hnd pr h1
    · refine List.Pairwise.cons ?_ hpw
      intro b hb
      have := hlow b hb
      rw [hrow]
      push_cast at this ⊢
      omega

theorem omitNull_keys_nodup (l : List (String × DicomVal)) (h : (l.map Prod.fst).Nodup) :
    ((omitNull l).map Prod.fst).Nodup :=
  List.Nodup.sublist ((List.filter_sublist _).map Prod.fst) h

theorem module_attrs_keys_nodup (mod : List String) (hmod : mod.Nodup) (f : String → DicomVal) :
    ((omitNull (mod.map (fun a => (a, f a)))).map Prod.fst).Nodup := by
  apply omitNull_keys_nodup
  rw [List.map_map]
  have hcomp : (Prod.fst ∘ fun a : String => ((a, f a) : String × DicomVal)) = id := rfl
  rw [hcomp, List.map_id]
  exact hmod

theorem patientAttributes_keys_nodup (st : DbState) (p : List String) :
    (((patientAttributes st p).1).map Prod.fst).Nodup := by
  unfold patientAttributes
  cases (registerFiles st.reg p).head?.bind (fun f => readDataset st f) with
  | some ds => exact module_attrs_keys_nodup PATIENT_MODULE (by decide) _
  | none =>
    apply omitNull_keys_nodup
    show (["PatientID", "PatientName"] : List String).Nodup
    decide

theorem studyAttributes_keys_nodup (st : DbState) (e : List String) :
    (((studyAttributes st e).1).map Prod.fst).Nodup := by
  unfold studyAttributes
  have hp := patientAttributes_keys_nodup st (e.take 2)
  cases hpa : patientAttributes st (e.take 2) with
  | mk pattr st1 =>
    rw [hpa] at hp
    dsimp only
    cases (registerFiles st1.reg e).head?.bind (fun f => readDataset st1 f) with
    | some ds =>
      exact dictUnion_keys_nodup _ _ hp (module_attrs_keys_nodup STUDY_MODULE (by decide) _)
    | none =>
      apply dictUnion_keys_nodup _ _ hp
      apply omitNull_keys_nodup
      show (["StudyInstanceUID", "StudyDescription", "StudyDate"] : List String).Nodup
      decide

theorem seriesAttributes_keys_nodup (st : DbState) (e : List String) :
    (((seriesAttributes st e).1).map Prod.fst).Nodup := by
  unfold seriesAttributes
  have hp := studyAttributes_keys_nodup st (e.take 3)
  cases hpa : studyAttributes st (e.take 3) with
  | mk sattr st1 =>
    rw [hpa] at hp
    dsimp only
    cases (registerFiles st1.reg e).head?.bind (fun f => readDataset st1 f) with
    | some ds =>
      exact dictUnion_keys_nodup _ _ hp (module_attrs_keys_nodup SERIES_MODULE (by decide) _)
    | none =>
      apply dictUnion_keys_nodup _ _ hp
      apply omitNull_keys_nodup
      show (["SeriesInstanceUID", "SeriesDescription", "SeriesNumber"] : List String).Nodup
      decide

theorem attributes_keys_nodup (st : DbState) (e : List String)
    (a : List (String × DicomVal)) (st1 : DbState) (h : attributes st e = some (a, st1)) :
    (a.map Prod.fst).Nodup := by
  unfold attributes at h
  split at h
  · have hh := Option.some.inj h
    have hn := seriesAttributes_keys_nodup st e
    rw [hh] at hn
    exact hn
  · split at h
    · have hh := Option.some.inj h
      have hn := studyAttributes_keys_nodup st e
      rw [hh] at hn
      exact hn
    · split at h
      · have hh := Option.some.inj h
        have hn := patientAttributes_keys_nodup st e
        rw [hh] at hn
        exact hn
      · cases h

theorem seriesTarget_ok (st : DbState) (tgt : List String) (attr : List (String × DicomVal))
    (suid : String) (st1 : DbState) (h : seriesTarget st tgt = .ok (attr, suid, st1)) :
    st1.reg = st.reg ∧ (attr.map Prod.fst).Nodup ∧
    ∃ v, attrLookup attr "SeriesInstanceUID" = some v ∧ suid = strOf v := by
  unfold seriesTarget at h
  cases hattr : attributes st tgt with
  | none => rw [hattr] at h; cases h
  | some p =>
    rw [hattr] at h
    obtain ⟨a, stx⟩ := p
    dsimp only at h
    cases hlk : attrLookup a "SeriesInstanceUID" with
    | none => rw [hlk] at h; cases h
    | some v =>
      rw [hlk] at h
      have hfr := (attributes_frame st tgt a stx hattr).2.1
      have hnd := attributes_keys_nodup st tgt a stx hattr
      cases h
      exact ⟨hfr, hnd, v, hlk, rfl⟩

theorem filesToSeries_rows (st : DbState) (files tgt : List String) (st2 : DbState)
    (h : filesToSeries st files tgt = .ok st2) :
    ∃ rows u, st2.reg = st.reg ++ rows ∧
      (∀ pr ∈ rows, pr.2.created = true ∧ pr.2.removed = false) ∧
      (∀ pr ∈ rows, pr.2.seriesInstanceUID = u) ∧
      (∀ pr ∈ rows, maxInstanceNumber st.reg u < pr.2.instanceNumber) ∧
      rows.Pairwise (fun a b => a.2.instanceNumber < b.2.instanceNumber) := by
  unfold filesToSeries at h
  cases hst : seriesTarget st tgt with
  | error m => rw [hst] at h; cases h
  | ok res =>
    rw [hst] at h
    obtain ⟨attr, suid, st1⟩ := res
    dsimp only at h
    cases hloop : writeFilesLoop attr (maxInstanceNumber st1.reg suid) st1 0 [] files with
    | error m => rw [hloop] at h; cases h
    | ok out =>
      rw [hloop] at h
      cases h
      rcases seriesTarget_ok st tgt attr suid st1 hst with ⟨hfr, hnd, v, hv, hsv⟩
      rcases writeFilesLoop_ok attr _ files st1 0 [] out hloop with
        ⟨hreg, newr, hrows, _, hlow, hsuid, hpw⟩
      refine ⟨out.2.map (fun pr => (pr.1, { pr.2 with removed := false, created := true })),
        suid, ?_, ?_, ?_, ?_, ?_⟩
      · show (updateRegister out.1 out.2).reg = _
        unfold updateRegister
        rw [hreg, hfr]
      · intro pr hpr
        rcases List.mem_map.mp hpr with ⟨pr0, _, hpr0⟩
        rw [← hpr0]
        exact ⟨rfl, rfl⟩
      · intro pr hpr
        rcases List.mem_map.mp hpr with ⟨pr0, hpr0m, hpr0⟩
        rw [← hpr0]
        show pr0.2.seriesInstanceUID = suid
        rw [hsv]
        exact hsuid v hv hnd pr0 (by rw [hrows] at hpr0m; simpa using hpr0m)
      · intro pr hpr
        rcases List.mem_map.mp hpr with ⟨pr0, hpr0m, hpr0⟩
        rw [← hpr0]
        show maxInstanceNumber st.reg suid < pr0.2.instanceNumber
        have hl := hlow pr0 (by rw [hrows] at hpr0m; simpa using hpr0m)
        rw [hfr] at hl
        push_cast at hl
        omega
      · rw [List.pairwise_map]
        have hpm : out.2.Pairwise (fun a b => a.2.instanceNumber < b.2.instanceNumber) := by
          rw [hrows]
          simpa using hpw
        exact hpm.imp (fun hab => hab)

theorem writeVolume_rows (st : DbState) (vol : VolumeND) (tgt : List String)
    (refDs : Dataset) (st2 : DbState) (h : writeVolume st vol tgt refDs = .ok st2) :
    ∃ rows u, st2.reg = st.reg ++ rows ∧
      (∀ pr ∈ rows, pr.2.created = true ∧ pr.2.removed = false) ∧
      (∀ pr ∈ rows, pr.2.seriesInstanceUID = u) ∧
      (∀ pr ∈ rows, maxInstanceNumber st.reg u < pr.2.instanceNumber) ∧
      rows.Pairwise (fun a b => a.2.instanceNumber < b.2.instanceNumber) := by
  unfold writeVolume at h
  cases hst : seriesTarget st tgt with
  | error m => rw [hst] at h; cases h
  | ok res =>
    rw [hst] at h
    obtain ⟨attr, suid, st1⟩ := res
    dsimp only at h
    rcases seriesTarget_ok st tgt attr suid st1 hst with ⟨hfr, hnd, v, hv, hsv⟩
    rcases writeVolumeLoop_out attr (maxInstanceNumber st1.reg suid) vol.slices st1 refDs 0 []
      with ⟨hreg, newr, hrows, _, hlow, hsuid, hpw⟩
    by_cases h3 : vol.ndim = 3
    · rw [if_pos h3] at h
      cases h
      refine ⟨(writeVolumeLoop attr (maxInstanceNumber st1.reg suid) st1 refDs 0 []
          vol.slices).2.map (fun pr => (pr.1, { pr.2 with removed := false, created := true })),
        suid, ?_, ?_, ?_, ?_, ?_⟩
      · show (updateRegister _ _).reg = _
        unfold updateRegister
        rw [hreg, hfr]
      · intro pr hpr
        rcases List.mem_map.mp hpr with ⟨pr0, _, hpr0⟩
        rw [← hpr0]
        exact ⟨rfl, rfl⟩
      · intro pr hpr
        rcases List.mem_map.mp hpr with ⟨pr0, hpr0m, hpr0⟩
        rw [← hpr0]
        show pr0.2.seriesInstanceUID = suid
        rw [hsv]
        exact hsuid v hv hnd pr0 (by rw [hrows] at hpr0m; simpa using hpr0m)
      · intro pr hpr
        rcases List.mem_map.mp hpr with ⟨pr0, hpr0m, hpr0⟩
        rw [← hpr0]
        show maxInstanceNumber st.reg suid < pr0.2.instanceNumber
        have hl := hlow pr0 (by rw [hrows] at hpr0m; simpa using hpr0m)
        rw [hfr] at hl
        push_cast at hl
        omega
      · rw [List.pairwise_map]
        have hpm : (writeVolumeLoop attr (maxInstanceNumber st1.reg suid) st1 refDs 0 []
            vol.slices).2.Pairwise (fun a b => a.2.instanceNumber < b.2.instanceNumber) := by
          rw [hrows]
          simpa using hpw
        exact hpm.imp (fun hab => hab)
    · rw [if_neg h3] at h
      cases h
      exact ⟨[], suid, by rw [hreg, hfr, List.append_nil], by simp, by simp, by simp, by simp⟩

theorem inv_append_rows (st : DbState) (rows : List (String × CatalogRecord)) (u : String)
    (hinv : CatalogInv st)
    (hflags : ∀ pr ∈ rows, pr.2.created = true ∧ pr.2.removed = false)
    (hsuid : ∀ pr ∈ rows, pr.2.seriesInstanceUID = u)
    (hgt : ∀ pr ∈ rows, maxInstanceNumber st.reg u < pr.2.instanceNumber)
    (hpw : rows.Pairwise (fun a b => a.2.instanceNumber < b.2.instanceNumber)) :
    PairsUniqueNR (st.reg ++ rows) ∧ PairsUniqueNC (st.reg ++ rows) ∧
    NumsGE (st.reg ++ rows) := by
  obtain ⟨hNR, hNC, hGE⟩ := hinv
  have hmax0 : 0 ≤ maxInstanceNumber st.reg u := maxInstanceNumber_nonneg st.reg u hGE
  refine ⟨?_, ?_, ?_⟩
  · show ((st.reg ++ rows).filter fun pr => !pr.2.removed).Pairwise PairNe
    rw [List.filter_append]
    have hrows : rows.filter (fun pr => !pr.2.removed) = rows := by
      rw [List.filter_eq_self]
      intro pr hpr
      simp [(hflags pr hpr).2]
    rw [hrows, List.pairwise_append]
    refine ⟨hNR, hpw.imp (fun hab => Or.inr (ne_of_lt hab)), ?_⟩
    intro a ha b hb
    rcases List.mem_filter.mp ha with ⟨ham, hanr⟩
    by_cases hs : a.2.seriesInstanceUID = b.2.seriesInstanceUID
    · refine Or.inr ?_
      have hbu : b.2.seriesInstanceUID = u := hsuid b hb
      have hbn : maxInstanceNumber st.reg u < b.2.instanceNumber := hgt b hb
      by_cases hne : a.2.instanceNumber = -1
      · omega
      · have : a.2.instanceNumber ≤ maxInstanceNumber st.reg u :=
          le_maxInstanceNumber st.reg u a ham (by simpa using hanr) (hs.trans hbu) hne
        omega
    · exact Or.inl hs
  · show ((st.reg ++ rows).filter fun pr => !pr.2.created).Pairwise PairNe
    rw [List.filter_append]
    have hrows : rows.filter (fun pr => !pr.2.created) = [] := by
      rw [List.filter_eq_nil_iff]
      intro pr hpr
      simp [(hflags pr hpr).1]
    rw [hrows, List.append_nil]
    exact hNC
  · intro pr hpr
    rcases List.mem_append.mp hpr with h1 | h1
    · exact hGE pr h1
    · have := hgt pr h1
      omega

theorem inv_markRemoved (st : DbState) (idx : List String) (hinv : CatalogInv st) :
    CatalogInv (markRemoved st idx) := by
  obtain ⟨hNR, hNC, hGE⟩ := hinv
  have hfields : ∀ pr : String × CatalogRecord,
      ((if idx.contains pr.1 then (pr.1, { pr.2 with removed := true }) else pr)).2.seriesInstanceUID
        = pr.2.seriesInstanceUID ∧
      ((if idx.contains pr.1 then (pr.1, { pr.2 with removed := true }) else pr)).2.instanceNumber
        = pr.2.instanceNumber ∧
      ((if idx.contains pr.1 then (pr.1, { pr.2 with removed := true }) else pr)).2.created
        = pr.2.created := by
    intro pr
    cases hc : idx.contains pr.1 with
    | true => exact ⟨rfl, rfl, rfl⟩
    | false => exact ⟨rfl, rfl, rfl⟩
  refine ⟨?_, ?_, ?_⟩
  · show ((markRemoved st idx).reg.filter fun pr => !pr.2.removed).Pairwise PairNe
    unfold markRemoved
    dsimp only
    rw [List.filter_map, List.pairwise_map]
    have hsub : List.Sublist
        (st.reg.filter ((fun pr : String × CatalogRecord => !pr.2.removed) ∘
          fun pr => if idx.contains pr.1 then (pr.1, { pr.2 with removed := true }) else pr))
        (st.reg.filter fun pr => !pr.2.removed) := by
      apply filter_sublist_filter
      intro pr hp
      simp only [Function.comp] at hp
      cases hc : idx.contains pr.1 with
      | true => rw [hc] at hp; simp at hp
      | false => rw [hc] at hp; simpa using hp
    have hbase := List.Pairwise.sublist hsub hNR
    refine hbase.imp ?_
    intro a b hab
    rcases hab with h1 | h1
    · exact Or.inl (by rw [(hfields a).1, (hfields b).1]; exact h1)
    · exact Or.inr (by rw [(hfields a).2.1, (hfields b).2.1]; exact h1)
  · show ((markRemoved st idx).reg.filter fun pr => !pr.2.created).Pairwise PairNe
    unfold markRemoved
    dsimp only
    rw [List.filter_map, List.pairwise_map]
    have hfun : ((fun pr : String × CatalogRecord => !pr.2.created) ∘
        fun pr => if idx.contains pr.1 then (pr.1, { pr.2 with removed := true }) else pr)
        = fun pr : String × CatalogRecord => !pr.2.created := by
      funext pr
      simp only [Function.comp]
      rw [(hfields pr).2.2]
    rw [hfun]
    refine hNC.imp ?_
    intro a b hab
    rcases hab with h1 | h1
    · exact Or.inl (by rw [(hfields a).1, (hfields b).1]; exact h1)
    · exact Or.inr (by rw [(hfields a).2.1, (hfields b).2.1]; exact h1)
  · intro pr hpr
    unfold markRemoved at hpr
    dsimp only at hpr
    rcases List.mem_map.mp hpr with ⟨pr0, hpr0, hf⟩
    have := hGE pr0 hpr0
    rw [← hf, (hfields pr0).2.1]
    exact this

theorem inv_close (st : DbState) (hinv : CatalogInv st) : CatalogInv (close st).1 := by
  obtain ⟨hNR, hNC, hGE⟩ := hinv
  have hfields : ∀ pr : String × CatalogRecord,
      ((if pr.2.created then (pr.1, { pr.2 with created := false }) else pr)).2.seriesInstanceUID
        = pr.2.seriesInstanceUID ∧
      ((if pr.2.created then (pr.1, { pr.2 with created := false }) else pr)).2.instanceNumber
        = pr.2.instanceNumber ∧
      ((if pr.2.created then (pr.1, { pr.2 with created := false }) else pr)).2.removed
        = pr.2.removed ∧
      ((if pr.2.created then (pr.1, { pr.2 with created := false }) else pr)).2.created
        = false := by
    intro pr
    cases hc : pr.2.created with
    | true => exact ⟨rfl, rfl, rfl, rfl⟩
    | false => exact ⟨rfl, rfl, rfl, hc⟩
  refine ⟨?_, ?_, ?_⟩
  · show (((close st).1.reg).filter fun pr => !pr.2.removed).Pairwise PairNe
    rw [close_reg_eq, List.filter_map, List.pairwise_map]
    have hfun : ((fun pr : String × CatalogRecord => !pr.2.removed) ∘
        fun pr => if pr.2.created then (pr.1, { pr.2 with created := false }) else pr)
        = fun pr : String × CatalogRecord => !pr.2.removed := by
      funext pr
      simp only [Function.comp]
      rw [(hfields pr).2.2.1]
    rw [hfun]
    rw [List.filter_eq_self.mpr (fun pr hpr => (List.mem_filter.mp hpr).2)]
    refine hNR.imp ?_
    intro a b hab
    rcases hab with h1 | h1
    · exact Or.inl (by rw [(hfields a).1, (hfields b).1]; exact h1)
    · exact Or.inr (by rw [(hfields a).2.1, (hfields b).2.1]; exact h1)
  · show (((close st).1.reg).filter fun pr => !pr.2.created).Pairwise PairNe
    rw [close_reg_eq, List.filter_map, List.pairwise_map]
    have hfun : ((fun pr : String × CatalogRecord => !pr.2.created) ∘
        fun pr => if pr.2.created then (pr.1, { pr.2 with created := false }) else pr)
        = fun _ : String × CatalogRecord => true := by
      funext pr
      simp only [Function.comp]
      rw [(hfields pr).2.2.2]
      rfl
    rw [hfun, List.filter_true]
    refine hNR.imp ?_
    intro a b hab
    rcases hab with h1 | h1
    · exact Or.inl (by rw [(hfields a).1, (hfields b).1]; exact h1)
    · exact Or.inr (by rw [(hfields a).2.1, (hfields b).2.1]; exact h1)
  · intro pr hpr
    rw [close_reg_eq] at hpr
    rcases List.mem_map.mp hpr with ⟨pr0, hpr0, hf⟩
    have := hGE pr0 (List.mem_filter.mp hpr0).1
    rw [← hf, (hfields pr0).2.1]
    exact this

theorem inv_restore (st : DbState) (hinv : CatalogInv st) : CatalogInv (restore st).1 := by
  obtain ⟨hNR, hNC, hGE⟩ := hinv
  have hfields : ∀ pr : String × CatalogRecord,
      ((if pr.2.removed && !pr.2.created then (pr.1, { pr.2 with removed := false })
          else pr)).2.seriesInstanceUID = pr.2.seriesInstanceUID ∧
      ((if pr.2.removed && !pr.2.created then (pr.1, { pr.2 with removed := false })
          else pr)).2.instanceNumber = pr.2.instanceNumber ∧
      ((if pr.2.removed && !pr.2.created then (pr.1, { pr.2 with removed := false })
          else pr)).2.created = pr.2.created := by
    intro pr
    cases hc : (pr.2.removed && !pr.2.created) with
    | true => exact ⟨rfl, rfl, rfl⟩
    | false => exact ⟨rfl, rfl, rfl⟩
  have hremoved : ∀ pr : String × CatalogRecord, pr.2.created = false →
      ((if pr.2.removed && !pr.2.created then (pr.1, { pr.2 with removed := false })
          else pr)).2.removed = false := by
    intro pr hnc
    cases hc : (pr.2.removed && !pr.2.created) with
    | true => rfl
    | false =>
      have hx : pr.2.removed = false := by
        rw [hnc] at hc
        simpa using hc
      exact hx
  refine ⟨?_, ?_, ?_⟩
  · show (((restore st).1.reg).filter fun pr => !pr.2.removed).Pairwise PairNe
    rw [restore_reg_eq, List.filter_map, List.pairwise_map]
    have hfun : ∀ pr ∈ st.reg.filter (fun pr => !pr.2.created),
        ((fun pr : String × CatalogRecord => !pr.2.removed) ∘
          fun pr => if pr.2.removed && !pr.2.created then (pr.1, { pr.2 with removed := false })
            else pr) pr = true := by
      intro pr hpr
      have hnc : pr.2.created = false := by simpa using (List.mem_filter.mp hpr).2
      simp only [Function.comp]
      rw [hremoved pr hnc]
      rfl
    rw [List.filter_eq_self.mpr hfun]
    refine hNC.imp ?_
    intro a b hab
    rcases hab with h1 | h1
    · exact Or.inl (by rw [(hfields a).1, (hfields b).1]; exact h1)
    · exact Or.inr (by rw [(hfields a).2.1, (hfields b).2.1]; exact h1)
  · show (((restore st).1.reg).filter fun pr => !pr.2.created).Pairwise PairNe
    rw [restore_reg_eq, List.filter_map, List.pairwise_map]
    have hfun : ∀ pr ∈ st.reg.filter (fun pr => !pr.2.created),
        ((fun pr : String × CatalogRecord => !pr.2.created) ∘
          fun pr => if pr.2.removed && !pr.2.created then (pr.1, { pr.2 with removed := false })
            else pr) pr = true := by
      intro pr hpr
      have hnc := (List.mem_filter.mp hpr).2
      simp only [Function.comp]
      rw [(hfields pr).2.2]
      exact hnc
    rw [List.filter_eq_self.mpr hfun]
    refine hNC.imp ?_
    intro a b hab
    rcases hab with h1 | h1
    · exact Or.inl (by rw [(hfields a).1, (hfields b).1]; exact h1)
    · exact Or.inr (by rw [(hfields a).2.1, (hfields b).2.1]; exact h1)
  · intro pr hpr
    rw [restore_reg_eq] at hpr
    rcases List.mem_map.mp hpr with ⟨pr0, hpr0, hf⟩
    have := hGE pr0 (List.mem_filter.mp hpr0).1
    rw [← hf, (hfields pr0).2.1]
    exact this

theorem inv_init (st : DbState) (h : CleanInit st) : CatalogInv st := by
  obtain ⟨hflags, hpw, hge⟩ := h
  have hall : ∀ (q : (String × CatalogRecord) → Bool),
      (∀ pr ∈ st.reg, q pr = true) → st.reg.filter q = st.reg :=
    fun q hq => List.filter_eq_self.mpr hq
  refine ⟨?_, ?_, hge⟩
  · show (st.reg.filter fun pr => !pr.2.removed).Pairwise PairNe
    rw [hall _ (fun pr hpr => by simp [(hflags pr hpr).1])]
    exact hpw
  · show (st.reg.filter fun pr => !pr.2.created).Pairwise PairNe
    rw [hall _ (fun pr hpr => by simp [(hflags pr hpr).2])]
    exact hpw

theorem inv_step (st st' : DbState) (h : DbStep st st') (hinv : CatalogInv st) :
    CatalogInv st' := by
  cases h with
  | copyF a files tgt hok =>
    rcases filesToSeries_rows st files tgt st' hok with ⟨rows, u, hreg, hflags, hsuid, hgt, hpw⟩
    have hia := inv_append_rows st rows u hinv hflags hsuid hgt hpw
    exact ⟨by rw [hreg]; exact hia.1, by rw [hreg]; exact hia.2.1, by rw [hreg]; exact hia.2.2⟩
  | writeV a vol tgt refDs hok =>
    rcases writeVolume_rows st vol tgt refDs st' hok with ⟨rows, u, hreg, hflags, hsuid, hgt, hpw⟩
    have hia := inv_append_rows st rows u hinv hflags hsuid hgt hpw
    exact ⟨by rw [hreg]; exact hia.1, by rw [hreg]; exact hia.2.1, by rw [hreg]; exact hia.2.2⟩
  | del idx => exact inv_markRemoved st idx hinv
  | commit => exact inv_close st hinv
  | rollback => exact inv_restore st hinv

theorem reachable_inv (st : DbState) (h : ReachableCatalog st) : CatalogInv st := by
  induction h with
  | init st hc => exact inv_init st hc
  | step st st' _ hstep ih => exact inv_step st st' hstep ih

/-- Claim C1: in every reachable catalog state the pairs
(SeriesInstanceUID, InstanceNumber) of non-removed records are unique;
every session step (copy append, volume write, markRemoved, close,
restore) preserves this; and each instance appended by the per-file
write loop receives an InstanceNumber strictly greater than that of
every non-removed record of its destination series at the start of the
operation (dbd.py:563-569 and dbd.py:638-647). -/
theorem catalog_pair_uniqueness (st : DbState) (h : ReachableCatalog st) :
    PairsUniqueNR st.reg ∧
    (∀ st', DbStep st st' → PairsUniqueNR st'.reg) ∧
    (∀ files tgt st2, filesToSeries st files tgt = .ok st2 →
      ∃ rows, st2.reg = st.reg ++ rows ∧
        ∀ pr ∈ rows, pr.2.removed = false ∧ pr.2.created = true ∧
          ∀ pr0 ∈ st.reg, pr0.2.removed = false →
            pr0.2.seriesInstanceUID = pr.2.seriesInstanceUID →
            pr0.2.instanceNumber < pr.2.instanceNumber) := by
  have hinv := reachable_inv st h
  refine ⟨hinv.1, ?_, ?_⟩
  · intro st' hstep
    exact (inv_step st st' hstep hinv).1
  · intro files tgt st2 hok
    rcases filesToSeries_rows st files tgt st2 hok with ⟨rows, u, hreg, hflags, hsuid, hgt, _⟩
    refine ⟨rows, hreg, ?_⟩
    intro pr hpr
    refine ⟨(hflags pr hpr).2, (hflags pr hpr).1, ?_⟩
    intro pr0 hpr0 hnr hs
    by_cases hne : pr0.2.instanceNumber = -1
    · have h1 := hgt pr hpr
      have h0 := maxInstanceNumber_nonneg st.reg u hinv.2.2
      omega
    · have h1 := hgt pr hpr
      have h2 : pr0.2.instanceNumber ≤ maxInstanceNumber st.reg u :=
        le_maxInstanceNumber st.reg u pr0 hpr0 hnr (hs.trans (hsuid pr hpr)) hne
      omega

theorem catalog_pair_uniqueness_witness :
    PairsUniqueNR demoApp.reg :=
  (catalog_pair_uniqueness demoSt (ReachableCatalog.init demoSt (by decide))).2.1 demoApp
    (DbStep.copyF demoSt demoApp ["a.dcm"] demoTgt demoApp_step)

/-- Claim C6: for slices whose coordinate tuples form a complete,
duplicate-free Cartesian grid, volume assembly fails with a
geometry-inconsistency error if and only if the spatial-axis coordinate
vector at some non-spatial combination differs from the vector at the
first combination; when no such difference exists it returns one
assembled volume, attaching the non-spatial dimension labels and
coordinate values exactly when the result has more than 3 dimensions
(dbd.py:211-265; `meshvals` modelled from the spec). -/
theorem volume_geometry_consistency (dimLabels : List String)
    (tuples : List (List Int)) (ndims joinNdim : Nat)
    (h : CompleteGrid tuples ndims) :
    (volumeAssemble dimLabels tuples ndims joinNdim = .error .geometryInconsistency ↔
      SpatialMismatch tuples ndims) ∧
    (¬ SpatialMismatch tuples ndims →
      volumeAssemble dimLabels tuples ndims joinNdim = .ok
        { ndim := joinNdim,
          dims := if 3 < joinNdim then dimLabels else [],
          coords := if 3 < joinNdim then pages tuples ndims else [] }) := by
  have hlen : ¬ tuples.length ≠ gridCells tuples ndims := by
    simpa using h.2.2.1
  constructor
  · constructor
    · intro herr
      unfold volumeAssemble at herr
      rw [if_neg hlen] at herr
      by_cases hg : geomCheck tuples ndims = true
      · rw [if_neg (by simp [hg])] at herr
        exact Except.noConfusion herr
      · unfold geomCheck at hg
        have hex : ∃ p ∈ pages tuples ndims,
            ¬ (spatialVec tuples p ==
                spatialVec tuples (firstPage tuples ndims)) = true := by
          by_contra hall
          push_neg at hall
          exact hg (List.all_eq_true.mpr hall)
        rcases hex with ⟨p, hp, hne⟩
        exact ⟨p, hp, fun heq => hne (by simp [heq])⟩
    · rintro ⟨p, hp, hne⟩
      have hg : ¬ geomCheck tuples ndims = true := by
        intro hall
        unfold geomCheck at hall
        exact hne (by simpa using List.all_eq_true.mp hall p hp)
      unfold volumeAssemble
      rw [if_neg hlen, if_pos hg]
  · intro hnm
    have hg : geomCheck tuples ndims = true := by
      unfold geomCheck
      rw [List.all_eq_true]
      intro p hp
      by_contra hne
      exact hnm ⟨p, hp, fun heq => hne (by simp [heq])⟩
    unfold volumeAssemble
    rw [if_neg hlen, if_neg (by simp [hg])]

/-- Claim C6's witness: on the complete 2-by-2 grid whose second page's
spatial values `[0, 2]` differ from the first page's `[0, 1]`, assembly
fails with the geometry-inconsistency error; on the grid whose pages
share the spatial sampling it succeeds, and the joined result being
4-dimensional, it attaches the dimension label and the page coordinate
values. -/
theorem volume_geometry_consistency_witness :
    volumeAssemble ["t"] [[0, 0], [1, 0], [0, 1], [2, 1]] 2 4
      = .error .geometryInconsistency ∧
    volumeAssemble ["t"] [[0, 0], [1, 0], [0, 1], [1, 1]] 2 4
      = .ok { ndim := 4, dims := ["t"], coords := [[0], [1]] } :=
  ⟨(volume_geometry_consistency ["t"] [[0, 0], [1, 0], [0, 1], [2, 1]] 2 4
      (by decide)).1.mpr (by decide),
   ((volume_geometry_consistency ["t"] [[0, 0], [1, 0], [0, 1], [1, 1]] 2 4
      (by decide)).2 (by decide)).trans rfl⟩

/-- Claim C7, refuted: for a volume of more than 3 dimensions,
write_volume writes the slice files to disk but appends no catalog
records, because the return at dbd.py:311 precedes the register update
at dbd.py:312; the 3-dimensional path appends one record per written
slice. -/
theorem write_volume_nd_loses_records :
    writeVolume demoSt demoVol4 ["db", "P", "S", "T1"] [] = .ok demoWv4 ∧
    demoWv4.reg = demoSt.reg ∧
    demoWv4.disk.length = demoSt.disk.length + 2 ∧
    writeVolume demoSt demoVol3 ["db", "P", "S", "T1"] [] = .ok demoWv3 ∧
    demoWv3.reg.length = demoSt.reg.length + 2 := by
  exact ⟨rfl, by decide, by decide, rfl, by decide⟩

/-- Claim C8, refuted: the SOP-class split names the sibling series
after the root path (with root db the sibling becomes "db [1]" instead
of "T1 [1]", because the isinstance test at dbd.py:706 is always false),
and the moved files keep their original register rows because the drop
at dbd.py:714 is not in place, even though their files are deleted from
disk. -/
theorem split_series_bug_eval :
    splitSeries demoSt = .ok demoSplit ∧
    (∃ pr ∈ demoSplit.reg, pr.2.seriesDescription = "db [1]") ∧
    (¬ ∃ pr ∈ demoSplit.reg, pr.2.seriesDescription = "T1 [1]") ∧
    (∃ pr ∈ demoSplit.reg, pr.1 = "b.dcm") ∧
    (¬ ∃ fd ∈ demoSplit.disk, fd.1 = "b.dcm") := by
  exact ⟨rfl, by decide, by decide, by decide, by decide⟩

/-- Claim C9, refuted: a multiframe record whose conversion returns an
empty result is dropped from the register with no replacement and an
empty diagnostic list, so the loss is silent rather than surfaced as a
warning (dbd.py:663-686); a successful conversion replaces the record by
the single-frame records and deletes the original file. -/
theorem multiframe_silent_loss_eval :
    (multiframeToSingleframe demoMfSt (fun _ => [])).1.reg = [("b.dcm", recB)] ∧
    (multiframeToSingleframe demoMfSt (fun _ => [])).2 = [] ∧
    (multiframeToSingleframe demoMfSt (fun _ => [])).1.disk = demoMfSt.disk ∧
    (multiframeToSingleframe demoMfSt
      (fun _ => [("sf1.dcm", dsA), ("sf2.dcm", dsA)])).1.reg.length = 3 ∧
    diskHas (multiframeToSingleframe demoMfSt
      (fun _ => [("sf1.dcm", dsA), ("sf2.dcm", dsA)])).1.disk "a.dcm" = false := by
  exact ⟨by decide, by decide, by decide, by decide, by decide⟩

/-- Claim C10, refuted: a cross-root patient copy fails with an
unbound-local error, because the cross-root branch at dbd.py:512 opens
the destination catalog from to_study before to_study is assigned in
that branch; the state is returned unmutated. -/
theorem copy_patient_cross_root_raises :
    copyPatient demoSt ["db", "P"] ["other", "Q"]
      = .error "UnboundLocalError: local variable to_study referenced before assignment" ∧
    (studiesQ demoSt.reg ["db", "P"]).length = 1 ∧
    copy demoSt ["db", "P"] ["other", "Q"]
      = (demoSt,
         some "UnboundLocalError: local variable to_study referenced before assignment") := by
  exact ⟨rfl, by decide, rfl⟩
